import Mathlib

/-!
# Debt-note exchange chaincode (`debtnote_exchange.go`)

A shallow embedding of the `SmartContract` operations of `debtnote_exchange.go`
and the properties of its specification.

* The ledger stub is an in-memory key/value state: the public world state and
  the private data collections, keys strings and values raw bytes, a value
  stored as it is given. `GetState`, `GetPrivateData`, `GetPrivateDataHash` and
  `GetTransient` do not fail on it; `PutState`, `PutPrivateData` and
  `DelPrivateData` fail exactly where the chaincode shim rejects its arguments
  (an empty key or an empty collection name).
* Every mutating operation returns its result together with the ledger as the
  stub holds it when the function returns, so that a failure after a write
  would be visible.
* `encoding/json` is a parameter (`JsonCodec`) of the operations; `goJson` is
  an executable instance for a fragment of JSON, used to evaluate the
  operations on concrete payloads.
* `crypto/sha256` is `SHA256.sum256`, the FIPS 180-4 function itself.
* `invoke` is one invocation of any of the seven operations; `run` is a
  sequence of invocations, each with its own context, from a given ledger.
* `Faulty` holds the same operations over a stub whose every call may fail
  (`Faults`), as the source provides for with its `err != nil` tests; with
  `noFaults` they are the operations above. The failures that follow a write
  are studied there.
-/

set_option autoImplicit false

/-- Go's `[]byte`. -/
abbrev Bytes := List UInt8

/-! ## SHA-256 (`crypto/sha256`) -/

namespace SHA256

/-- The round constants. -/
def K : List Nat :=
  [0x428a2f98, 0x71374491, 0xb5c0fbcf, 0xe9b5dba5, 0x3956c25b, 0x59f111f1, 0x923f82a4, 0xab1c5ed5,
   0xd807aa98, 0x12835b01, 0x243185be, 0x550c7dc3, 0x72be5d74, 0x80deb1fe, 0x9bdc06a7, 0xc19bf174,
   0xe49b69c1, 0xefbe4786, 0x0fc19dc6, 0x240ca1cc, 0x2de92c6f, 0x4a7484aa, 0x5cb0a9dc, 0x76f988da,
   0x983e5152, 0xa831c66d, 0xb00327c8, 0xbf597fc7, 0xc6e00bf3, 0xd5a79147, 0x06ca6351, 0x14292967,
   0x27b70a85, 0x2e1b2138, 0x4d2c6dfc, 0x53380d13, 0x650a7354, 0x766a0abb, 0x81c2c92e, 0x92722c85,
   0xa2bfe8a1, 0xa81a664b, 0xc24b8b70, 0xc76c51a3, 0xd192e819, 0xd6990624, 0xf40e3585, 0x106aa070,
   0x19a4c116, 0x1e376c08, 0x2748774c, 0x34b0bcb5, 0x391c0cb3, 0x4ed8aa4a, 0x5b9cca4f, 0x682e6ff3,
   0x748f82ee, 0x78a5636f, 0x84c87814, 0x8cc70208, 0x90befffa, 0xa4506ceb, 0xbef9a3f7, 0xc67178f2]

/-- The initial hash value. -/
def initHash : List Nat :=
  [0x6a09e667, 0xbb67ae85, 0x3c6ef372, 0xa54ff53a, 0x510e527f, 0x9b05688c, 0x1f83d9ab, 0x5be0cd19]

/-- Truncation to a 32-bit word. -/
def w32 (x : Nat) : Nat := x % 4294967296

/-- Rotate a 32-bit word right by `n` bits. -/
def rotr (n x : Nat) : Nat := w32 ((x >>> n) ||| (x <<< (32 - n)))

def ch (x y z : Nat) : Nat := (x &&& y) ^^^ ((4294967295 - x) &&& z)

def maj (x y z : Nat) : Nat := (x &&& y) ^^^ (x &&& z) ^^^ (y &&& z)

def bsig0 (x : Nat) : Nat := rotr 2 x ^^^ rotr 13 x ^^^ rotr 22 x

def bsig1 (x : Nat) : Nat := rotr 6 x ^^^ rotr 11 x ^^^ rotr 25 x

def ssig0 (x : Nat) : Nat := rotr 7 x ^^^ rotr 18 x ^^^ (x >>> 3)

def ssig1 (x : Nat) : Nat := rotr 17 x ^^^ rotr 19 x ^^^ (x >>> 10)

/-- The 64-bit big-endian encoding of the message length in bits. -/
def be64 (n : Nat) : List Nat :=
  [n >>> 56 % 256, n >>> 48 % 256, n >>> 40 % 256, n >>> 32 % 256,
   n >>> 24 % 256, n >>> 16 % 256, n >>> 8 % 256, n % 256]

/-- The padded message: the bytes, `0x80`, zeros up to 56 modulo 64, the bit length. -/
def pad (msg : Bytes) : List Nat :=
  msg.map (fun b => b.toNat) ++ 128 :: List.replicate ((119 - msg.length % 64) % 64) 0
    ++ be64 (8 * msg.length)

/-- Big-endian 32-bit words of a byte string. -/
def toWords : List Nat → List Nat
  | b0 :: b1 :: b2 :: b3 :: rest => (b0 * 16777216 + b1 * 65536 + b2 * 256 + b3) :: toWords rest
  | _ => []

/-- The next word of the message schedule, from the window of the last 16 words. -/
def nextWord (win : List Nat) : Nat :=
  w32 (ssig1 (win.getD 14 0) + win.getD 9 0 + ssig0 (win.getD 1 0) + win.getD 0 0)

/-- The first `n` words of the message schedule of a block. -/
def schedule : Nat → List Nat → List Nat
  | 0, _ => []
  | n + 1, win => win.getD 0 0 :: schedule n (win.drop 1 ++ [nextWord win])

/-- One round of the compression function on the working variables `a..h`. -/
def round (s : List Nat) (kw : Nat × Nat) : List Nat :=
  match s with
  | [a, b, c, d, e, f, g, h] =>
    let t1 := h + bsig1 e + ch e f g + kw.1 + kw.2
    let t2 := bsig0 a + maj a b c
    [w32 (t1 + t2), a, b, c, w32 (d + t1), e, f, g]
  | _ => s

/-- The compression function on one 16-word block. -/
def compress (h : List Nat) (block : List Nat) : List Nat :=
  List.zipWith (fun x y => w32 (x + y)) h ((K.zip (schedule 64 block)).foldl round h)

/-- The first `n` 16-word blocks of a word string. -/
def blocks : Nat → List Nat → List (List Nat)
  | 0, _ => []
  | n + 1, ws => ws.take 16 :: blocks n (ws.drop 16)

/-- The four bytes of a word, big-endian. -/
def wordBytes (w : Nat) : Bytes :=
  [UInt8.ofNat (w >>> 24 % 256), UInt8.ofNat (w >>> 16 % 256), UInt8.ofNat (w >>> 8 % 256),
   UInt8.ofNat (w % 256)]

/-- The digest: `h := sha256.New(); h.Write(msg); h.Sum(nil)`. -/
def sum256 (msg : Bytes) : Bytes :=
  let ws := toWords (pad msg)
  ((blocks (ws.length / 16) ws).foldl compress initHash).flatMap wordBytes

end SHA256

/-! ## Hexadecimal formatting (`fmt.Sprintf("%x", b)`) -/

/-- A lowercase hexadecimal digit. -/
def hexDigit (n : Nat) : Char := "0123456789abcdef".toList.getD n '0'

/-- The verb `%x` on a byte slice: two lowercase hexadecimal digits per byte. -/
def hexEncode (b : Bytes) : String :=
  String.mk (b.flatMap fun x => [hexDigit (x.toNat / 16), hexDigit (x.toNat % 16)])

/-! ## Decoded JSON (`map[string]interface{}`) -/

/-- The values `json.Unmarshal` stores in an `interface{}`: `nil`, `bool`,
`float64` (here the pair `mant`, `exp` for `mant * 2 ^ exp`), `string`,
`[]interface{}` and `map[string]interface{}`. -/
inductive JValue where
  | null
  | bool (b : Bool)
  | num (mant : Int) (exp : Int)
  | str (s : String)
  | arr (xs : List JValue)
  | obj (kvs : List (String × JValue))
  deriving Repr, Inhabited

/-- Go's `map[string]interface{}`, as an association list. -/
abbrev JMap := List (String × JValue)

namespace JMap

/-- The index expression `m[k]`: the value under `k`, `nil` when `k` is absent. -/
def index : JMap → String → JValue
  | [], _ => JValue.null
  | (k, v) :: rest, key => if k = key then v else index rest key

/-- Byte-wise order on strings, the order in which `json.Marshal` writes map keys. -/
def keyLt : List Char → List Char → Bool
  | [], [] => false
  | [], _ :: _ => true
  | _ :: _, [] => false
  | a :: as, b :: bs => if a.toNat < b.toNat then true else if b.toNat < a.toNat then false
      else keyLt as bs

/-- The assignment `m[k] = v`: replaces the entry under `k`, or adds one (at its
place in key order). -/
def set : JMap → String → JValue → JMap
  | [], key, val => [(key, val)]
  | (k, v) :: rest, key, val =>
    if k = key then (key, val) :: rest
    else if keyLt key.toList k.toList then (key, val) :: (k, v) :: rest
    else (k, v) :: set rest key val

end JMap

/-- The functions of `encoding/json` the contract calls, on
`map[string]interface{}`: `json.Unmarshal(data, &m)` (`none` when it returns an
error) and `json.Marshal(m)` (which does not fail on decoded values). -/
structure JsonCodec where
  unmarshal : Bytes → Option JMap
  marshal : JMap → Bytes

/-- Source: `getSafeString`. The string held by an `interface{}`, and `""` for
`nil` and for a value of any other type. -/
def getSafeString (input : JValue) : String :=
  match input with
  | JValue.null => ""
  | JValue.str safeValue => safeValue
  | _ => ""

/-! ## The ledger stub and the transaction context -/

/-- The state behind the stub: the public world state and the private data
collections (collection name, then key). -/
structure Ledger where
  world : String → Option Bytes
  priv : String → String → Option Bytes

namespace Ledger

/-- The ledger with no entry. -/
def empty : Ledger := ⟨fun _ => none, fun _ _ => none⟩

/-- Stub `GetState`: the value under `key`, `nil` when absent. -/
def GetState (st : Ledger) (key : String) : Option Bytes := st.world key

/-- Stub `PutState`: rejects an empty key. -/
def PutState (st : Ledger) (key : String) (value : Bytes) : Option Ledger :=
  if key = "" then none
  else some { st with world := fun k => if k = key then some value else st.world k }

/-- Stub `GetPrivateData`. -/
def GetPrivateData (st : Ledger) (collection key : String) : Option Bytes :=
  st.priv collection key

/-- Stub `GetPrivateDataHash`: the SHA-256 hash the private store keeps of the
value under `key`. -/
def GetPrivateDataHash (st : Ledger) (collection key : String) : Option Bytes :=
  (st.priv collection key).map SHA256.sum256

/-- Stub `PutPrivateData`: rejects an empty collection name and an empty key. -/
def PutPrivateData (st : Ledger) (collection key : String) (value : Bytes) : Option Ledger :=
  if collection = "" then none
  else if key = "" then none
  else some { st with priv := fun c k =>
    if c = collection ∧ k = key then some value else st.priv c k }

/-- Stub `DelPrivateData`: rejects an empty collection name. -/
def DelPrivateData (st : Ledger) (collection key : String) : Option Ledger :=
  if collection = "" then none
  else some { st with priv := fun c k =>
    if c = collection ∧ k = key then none else st.priv c k }

end Ledger

/-- The transaction context: the client identity's MSP id
(`ctx.GetClientIdentity().GetMSPID()`), the peer's MSP id (`shim.GetMSPID()`),
each `none` when the call returns an error, and the transient map. -/
structure Context where
  clientMSPID : Option String
  peerMSPID : Option String
  transient : String → Option Bytes

/-- The failures of the contract, one per `fmt.Errorf` of the source. -/
inductive Err where
  | transientKeyNotFound (key : String)
  | unmarshal
  | emptyDebtNoteID
  | emptyDebt
  | emptyNewOwnerOrg
  | clientOrgID
  | peerOrgID
  | clientNotPeer (clientOrgID peerOrgID : String)
  | existsInWorldState (id : String)
  | existsInPrivateSpace (id : String)
  | debtyOrgNotClient
  | putPrivateData
  | putState
  | delPrivateData
  | notInPrivateSpace (id : String)
  | privateDetailsAbsent (id : String)
  | privateHashAbsent (id orgID : String)
  | worldStateAbsent (key : String)
  | notDebty (clientOrgID : String)
  | alreadyRedeemed
  deriving DecidableEq, Repr

/-- The result of a mutating operation and the ledger it leaves in the stub. -/
abbrev Outcome := Except Err Unit × Ledger

/-! ## The contract -/

/-- Source: `verifyClientOrgMatchesPeerOrg`. -/
def verifyClientOrgMatchesPeerOrg (ctx : Context) (clientOrgID : String) : Except Err Unit :=
  match ctx.peerMSPID with
  | none => .error .peerOrgID
  | some peerOrgID =>
    if clientOrgID ≠ peerOrgID then .error (.clientNotPeer clientOrgID peerOrgID)
    else .ok ()

/-- Source: `getClientOrgID`. -/
def getClientOrgID (ctx : Context) (verifyOrg : Bool) : Except Err String :=
  match ctx.clientMSPID with
  | none => .error .clientOrgID
  | some clientOrgID =>
    if verifyOrg then
      match verifyClientOrgMatchesPeerOrg ctx clientOrgID with
      | .error err => .error err
      | .ok _ => .ok clientOrgID
    else .ok clientOrgID

/-- Source: `buildCollectionName`. -/
def buildCollectionName (clientOrgID : String) : String :=
  "_implicit_org_" ++ clientOrgID

/-- Source: `getClientImplicitCollectionName`. -/
def getClientImplicitCollectionName (ctx : Context) : Except Err String :=
  match getClientOrgID ctx true with
  | .error err => .error err
  | .ok clientOrgID =>
    match verifyClientOrgMatchesPeerOrg ctx clientOrgID with
    | .error err => .error err
    | .ok _ => .ok (buildCollectionName clientOrgID)

/-- Source: `SmartContract.CreateDebtNote`. -/
def CreateDebtNote (J : JsonCodec) (ctx : Context) (st : Ledger) : Outcome :=
  match ctx.transient "debtnote_properties" with
  | none => (.error (.transientKeyNotFound "debtnote_properties"), st)
  | some immutableDebtNoteJSON =>
    match J.unmarshal immutableDebtNoteJSON with
    | none => (.error .unmarshal, st)
    | some debtNoteInput =>
      if (getSafeString (debtNoteInput.index "debtNoteID")).length = 0 then
        (.error .emptyDebtNoteID, st)
      else if (getSafeString (debtNoteInput.index "debt")).length = 0 then
        (.error .emptyDebt, st)
      else
        match getClientOrgID ctx true with
        | .error err => (.error err, st)
        | .ok clientOrgID =>
          match st.GetState (getSafeString (debtNoteInput.index "debtNoteID")) with
          | some _ =>
            (.error (.existsInWorldState (getSafeString (debtNoteInput.index "debtNoteID"))), st)
          | none =>
            let collection := buildCollectionName clientOrgID
            match st.GetPrivateData collection
                (getSafeString (debtNoteInput.index "debtNoteID")) with
            | some _ =>
              (.error (.existsInPrivateSpace (getSafeString (debtNoteInput.index "debtNoteID"))),
                st)
            | none =>
              if getSafeString (debtNoteInput.index "debtyOrg") ≠ clientOrgID then
                (.error .debtyOrgNotClient, st)
              else
                let debtNoteBytes := J.marshal debtNoteInput
                match st.PutPrivateData collection
                    (getSafeString (debtNoteInput.index "debtNoteID")) debtNoteBytes with
                | none => (.error .putPrivateData, st)
                | some st1 =>
                  let calculatedHash := SHA256.sum256 immutableDebtNoteJSON
                  match st1.PutState (getSafeString (debtNoteInput.index "debtNoteID"))
                      calculatedHash with
                  | none => (.error .putState, st1)
                  | some st2 => (.ok (), st2)

/-- Source: `SmartContract.DeleteDebtNote`. -/
def DeleteDebtNote (J : JsonCodec) (ctx : Context) (st : Ledger) : Outcome :=
  match getClientOrgID ctx false with
  | .error err => (.error err, st)
  | .ok clientOrgID =>
    match ctx.transient "debtnote_properties" with
    | none => (.error (.transientKeyNotFound "debtnote_properties"), st)
    | some immutableDebtNoteJSON =>
      match J.unmarshal immutableDebtNoteJSON with
      | none => (.error .unmarshal, st)
      | some debtNoteInput =>
        if (getSafeString (debtNoteInput.index "debtNoteID")).length = 0 then
          (.error .emptyDebtNoteID, st)
        else
          let collection := buildCollectionName clientOrgID
          match st.GetPrivateData collection
              (getSafeString (debtNoteInput.index "debtNoteID")) with
          | none =>
            (.error (.notInPrivateSpace (getSafeString (debtNoteInput.index "debtNoteID"))), st)
          | some _ =>
            match st.DelPrivateData collection
                (getSafeString (debtNoteInput.index "debtNoteID")) with
            | none => (.error .delPrivateData, st)
            | some st1 => (.ok (), st1)

/-- Source: `SmartContract.TransferDebtNote`. -/
def TransferDebtNote (J : JsonCodec) (ctx : Context) (st : Ledger) : Outcome :=
  match ctx.transient "debtnote_new_owner" with
  | none => (.error (.transientKeyNotFound "debtnote_new_owner"), st)
  | some immutableDebtNoteJSON =>
    match ctx.transient "debtnote_newproperties" with
    | none => (.error (.transientKeyNotFound "debtnote_newproperties"), st)
    | some immutableTransferableDebtNoteJSON =>
      match J.unmarshal immutableDebtNoteJSON with
      | none => (.error .unmarshal, st)
      | some debtNoteInput =>
        if (getSafeString (debtNoteInput.index "debtNoteID")).length = 0 then
          (.error .emptyDebtNoteID, st)
        else if (getSafeString (debtNoteInput.index "newOwnerOrg")).length = 0 then
          (.error .emptyNewOwnerOrg, st)
        else
          let collectionNewOrg :=
            buildCollectionName (getSafeString (debtNoteInput.index "newOwnerOrg"))
          match st.PutPrivateData collectionNewOrg
              (getSafeString (debtNoteInput.index "debtNoteID"))
              immutableTransferableDebtNoteJSON with
          | none => (.error .putPrivateData, st)
          | some st1 =>
            let calculatedHash := SHA256.sum256 immutableDebtNoteJSON
            match st1.PutState (getSafeString (debtNoteInput.index "debtNoteID") ++ "_TRANSFER")
                calculatedHash with
            | none => (.error .putState, st1)
            | some st2 => (.ok (), st2)

/-- Source: `SmartContract.GetDebtNote`. The result is the stored byte string
(`string(immutableProperties)` keeps the bytes). -/
def GetDebtNote (ctx : Context) (st : Ledger) (debtNoteID : String) : Except Err Bytes :=
  match getClientImplicitCollectionName ctx with
  | .error err => .error err
  | .ok collection =>
    match st.GetPrivateData collection debtNoteID with
    | none => .error (.privateDetailsAbsent debtNoteID)
    | some immutableProperties => .ok immutableProperties

/-- Source: `SmartContract.GetDebtNoteHash`. -/
def GetDebtNoteHash (st : Ledger) (debtNoteID : String) (orgID : String) : Except Err String :=
  let collection := buildCollectionName orgID
  match st.GetPrivateDataHash collection debtNoteID with
  | none => .error (.privateHashAbsent debtNoteID orgID)
  | some immutablePropertiesOnChainHash => .ok (hexEncode immutablePropertiesOnChainHash)

/-- Source: `SmartContract.ReadWorldState`. -/
def ReadWorldState (st : Ledger) (key : String) : Except Err String :=
  match st.GetState key with
  | none => .error (.worldStateAbsent key)
  | some valueJSON => .ok (hexEncode valueJSON)

/-- Source: `SmartContract.RedeemDebtNote`. -/
def RedeemDebtNote (J : JsonCodec) (ctx : Context) (st : Ledger) : Outcome :=
  match ctx.transient "debtnote_redeem" with
  | none => (.error (.transientKeyNotFound "debtnote_redeem"), st)
  | some immutableDebtNoteJSON =>
    match J.unmarshal immutableDebtNoteJSON with
    | none => (.error .unmarshal, st)
    | some debtNoteInput =>
      if (getSafeString (debtNoteInput.index "debtNoteID")).length = 0 then
        (.error .emptyDebtNoteID, st)
      else
        match getClientOrgID ctx true with
        | .error err => (.error err, st)
        | .ok clientOrgID =>
          let collection := buildCollectionName clientOrgID
          match st.GetPrivateData collection
              (getSafeString (debtNoteInput.index "debtNoteID")) with
          | none =>
            (.error (.notInPrivateSpace (getSafeString (debtNoteInput.index "debtNoteID"))), st)
          | some debtNoteAsBytes =>
            match J.unmarshal debtNoteAsBytes with
            | none => (.error .unmarshal, st)
            | some debtNoteAsBytesInput =>
              if clientOrgID ≠ getSafeString (debtNoteAsBytesInput.index "debtyOrg") then
                (.error (.notDebty clientOrgID), st)
              else if getSafeString (debtNoteAsBytesInput.index "redeemStatus") ≠ "False" then
                (.error .alreadyRedeemed, st)
              else
                let redeemed := debtNoteAsBytesInput.set "redeemStatus" (JValue.str "True")
                let debtNoteBytes := J.marshal redeemed
                match st.PutPrivateData collection
                    (getSafeString (redeemed.index "debtNoteID")) debtNoteBytes with
                | none => (.error .putPrivateData, st)
                | some st1 => (.ok (), st1)

/-! ## An executable `encoding/json` for a fragment of JSON

`goJson` decodes and encodes as `encoding/json` does on ASCII JSON texts whose
numbers are integers of magnitude below `2 ^ 53` written without fraction or
exponent. On any other input `unmarshal` returns `none`, also where
`encoding/json` would decode it: the instance is used only to run the contract
on concrete payloads of the fragment. -/

namespace GoJson

/-- Skip JSON white space (space, tab, line feed, carriage return). -/
def skipWs : List Nat → List Nat
  | [] => []
  | b :: rest => if b = 32 ∨ b = 9 ∨ b = 10 ∨ b = 13 then skipWs rest else b :: rest

/-- The value of a hexadecimal digit. -/
def hexVal (b : Nat) : Option Nat :=
  if 48 ≤ b ∧ b ≤ 57 then some (b - 48)
  else if 97 ≤ b ∧ b ≤ 102 then some (b - 87)
  else if 65 ≤ b ∧ b ≤ 70 then some (b - 55)
  else none

/-- The character a one-letter escape stands for. -/
def escapeChar (b : Nat) : Option Char :=
  if b = 34 then some '"' else if b = 92 then some '\\' else if b = 47 then some '/'
  else if b = 98 then some (Char.ofNat 8) else if b = 102 then some (Char.ofNat 12)
  else if b = 110 then some '\n' else if b = 114 then some '\r' else if b = 116 then some '\t'
  else none

/-- The rest of a string literal after its opening quote: the decoded string
and the input after the closing quote. -/
def strBody : List Nat → List Char → Option (String × List Nat)
  | [], _ => none
  | b :: rest, acc =>
    if b = 34 then some (String.mk acc.reverse, rest)
    else if b = 92 then
      match rest with
      | [] => none
      | e :: rest1 =>
        if e = 117 then
          match rest1 with
          | h1 :: h2 :: h3 :: h4 :: rest2 =>
            match hexVal h1, hexVal h2, hexVal h3, hexVal h4 with
            | some d1, some d2, some d3, some d4 =>
              if d1 = 0 ∧ d2 = 0 ∧ d3 < 8 then strBody rest2 (Char.ofNat (d3 * 16 + d4) :: acc)
              else none
            | _, _, _, _ => none
          | _ => none
        else
          match escapeChar e with
          | some c => strBody rest1 (c :: acc)
          | none => none
    else if 32 ≤ b ∧ b < 128 then strBody rest (Char.ofNat b :: acc)
    else none

/-- The digits at the head of the input: their value, their number, the rest. -/
def digits : List Nat → Nat → Nat → Nat × Nat × List Nat
  | [], acc, cnt => (acc, cnt, [])
  | b :: rest, acc, cnt =>
    if 48 ≤ b ∧ b ≤ 57 then digits rest (acc * 10 + (b - 48)) (cnt + 1) else (acc, cnt, b :: rest)

/-- A number of the fragment: an optional minus sign and a decimal integer
without leading zero, not followed by a fraction or an exponent. -/
def number (neg : Bool) (inp : List Nat) : Option (JValue × List Nat) :=
  match digits inp 0 0 with
  | (n, cnt, rest) =>
    if cnt = 0 then none
    else if inp.head? = some 48 ∧ cnt ≠ 1 then none
    else if rest.head? = some 46 ∨ rest.head? = some 101 ∨ rest.head? = some 69 then none
    else if 9007199254740992 ≤ n then none
    else if neg then (if n = 0 then none else some (JValue.num (Int.negSucc (n - 1)) 0, rest))
    else some (JValue.num (Int.ofNat n) 0, rest)

mutual
/-- A JSON value at the head of the input (after white space). -/
def value : Nat → List Nat → Option (JValue × List Nat)
  | 0, _ => none
  | fuel + 1, inp =>
    match inp with
    | [] => none
    | b :: rest =>
      if b = 34 then
        match strBody rest [] with
        | some (s, rest1) => some (JValue.str s, rest1)
        | none => none
      else if b = 123 then
        match members fuel (skipWs rest) [] true with
        | some (m, rest1) => some (JValue.obj m, rest1)
        | none => none
      else if b = 91 then
        match elems fuel (skipWs rest) [] true with
        | some (xs, rest1) => some (JValue.arr xs, rest1)
        | none => none
      else if b = 45 then number true rest
      else if 48 ≤ b ∧ b ≤ 57 then number false (b :: rest)
      else
        match b :: rest with
        | 116 :: 114 :: 117 :: 101 :: rest1 => some (JValue.bool true, rest1)
        | 102 :: 97 :: 108 :: 115 :: 101 :: rest1 => some (JValue.bool false, rest1)
        | 110 :: 117 :: 108 :: 108 :: rest1 => some (JValue.null, rest1)
        | _ => none
/-- The elements of an array after its opening bracket; `first` holds before
the first element, where the closing bracket may follow at once. -/
def elems : Nat → List Nat → List JValue → Bool → Option (List JValue × List Nat)
  | 0, _, _, _ => none
  | fuel + 1, inp, acc, first =>
    match inp with
    | [] => none
    | b :: rest =>
      if b = 93 ∧ first then some (acc.reverse, rest)
      else
        match value fuel (b :: rest) with
        | none => none
        | some (v, rest1) =>
          match skipWs rest1 with
          | 44 :: rest2 => elems fuel (skipWs rest2) (v :: acc) false
          | 93 :: rest2 => some ((v :: acc).reverse, rest2)
          | _ => none
/-- The members of an object after its opening brace; a repeated key keeps its
last value. -/
def members : Nat → List Nat → JMap → Bool → Option (JMap × List Nat)
  | 0, _, _, _ => none
  | fuel + 1, inp, acc, first =>
    match inp with
    | [] => none
    | b :: rest =>
      if b = 125 ∧ first then some (acc, rest)
      else if b = 34 then
        match strBody rest [] with
        | none => none
        | some (k, rest1) =>
          match skipWs rest1 with
          | 58 :: rest2 =>
            match value fuel (skipWs rest2) with
            | none => none
            | some (v, rest3) =>
              match skipWs rest3 with
              | 44 :: rest4 => members fuel (skipWs rest4) (acc.set k v) false
              | 125 :: rest4 => some (acc.set k v, rest4)
              | _ => none
          | _ => none
      else none
end

/-- Model of `json.Unmarshal(data, &m)` on the fragment: the text is one JSON
object (or `null`, which leaves the map empty), surrounded by white space. -/
def unmarshal (data : Bytes) : Option JMap :=
  let inp := skipWs (data.map fun b => b.toNat)
  match value (2 * inp.length + 2) inp with
  | some (JValue.obj m, rest) => if skipWs rest = [] then some m else none
  | some (JValue.null, rest) => if skipWs rest = [] then some [] else none
  | _ => none

/-- The UTF-8 encoding of a character. -/
def utf8 (c : Char) : List Nat :=
  let n := c.toNat
  if n < 128 then [n]
  else if n < 2048 then [192 + n / 64, 128 + n % 64]
  else if n < 65536 then [224 + n / 4096, 128 + n / 64 % 64, 128 + n % 64]
  else [240 + n / 262144, 128 + n / 4096 % 64, 128 + n / 64 % 64, 128 + n % 64]

/-- An escape `\u00XX` or `\u20XX`, by its four hexadecimal digits. -/
def uEscape (n : Nat) : List Nat :=
  [92, 117, (hexDigit (n / 4096 % 16)).toNat, (hexDigit (n / 256 % 16)).toNat,
    (hexDigit (n / 16 % 16)).toNat, (hexDigit (n % 16)).toNat]

/-- A character inside a string literal as `json.Marshal` writes it: the quote
and the backslash escaped, the short escapes for line feed, carriage return and
tab, the `\u` escape for the other control characters, for the angle brackets
and the ampersand and for U+2028 and U+2029. -/
def encodeChar (c : Char) : List Nat :=
  let n := c.toNat
  if n = 34 ∨ n = 92 then [92, n]
  else if n = 10 then [92, 110]
  else if n = 13 then [92, 114]
  else if n = 9 then [92, 116]
  else if n < 32 ∨ n = 60 ∨ n = 62 ∨ n = 38 ∨ n = 8232 ∨ n = 8233 then uEscape n
  else utf8 c

/-- A string literal. -/
def encodeString (s : String) : List Nat :=
  34 :: s.toList.flatMap encodeChar ++ [34]

/-- The decimal digits of a natural number, `fuel` bounding their number. -/
def natDigits : Nat → Nat → List Nat → List Nat
  | 0, _, acc => acc
  | fuel + 1, n, acc =>
    if n < 10 then (48 + n) :: acc else natDigits fuel (n / 10) ((48 + n % 10) :: acc)

/-- A number with `0 ≤ exp`: the integer `mant * 2 ^ exp` in decimal (the
fragment has `exp = 0`). -/
def encodeNum (mant exp : Int) : List Nat :=
  let n := mant.natAbs * 2 ^ exp.toNat
  (if mant < 0 then [45] else []) ++ natDigits (n + 1) n []

mutual
/-- A value as `json.Marshal` writes it. -/
def encodeValue : JValue → List Nat
  | JValue.null => [110, 117, 108, 108]
  | JValue.bool true => [116, 114, 117, 101]
  | JValue.bool false => [102, 97, 108, 115, 101]
  | JValue.num mant exp => encodeNum mant exp
  | JValue.str s => encodeString s
  | JValue.arr xs => 91 :: encodeElems xs ++ [93]
  | JValue.obj kvs => 123 :: encodeMembers kvs ++ [125]
/-- The elements of an array, separated by commas. -/
def encodeElems : List JValue → List Nat
  | [] => []
  | [v] => encodeValue v
  | v :: w :: rest => encodeValue v ++ 44 :: encodeElems (w :: rest)
/-- The members of an object, separated by commas, in list order (which is
key order for every map built by `JMap.set`). -/
def encodeMembers : List (String × JValue) → List Nat
  | [] => []
  | [(k, v)] => encodeString k ++ 58 :: encodeValue v
  | (k, v) :: kv :: rest => encodeString k ++ 58 :: encodeValue v ++ 44 :: encodeMembers (kv :: rest)
end

/-- Model of `json.Marshal(m)`. -/
def marshal (m : JMap) : Bytes :=
  (encodeValue (JValue.obj m)).map UInt8.ofNat

end GoJson

/-- The executable instance of `encoding/json`. -/
def goJson : JsonCodec := ⟨GoJson.unmarshal, GoJson.marshal⟩

/-- The bytes of an ASCII string literal. -/
def ascii (s : String) : Bytes := s.toList.map fun c => UInt8.ofNat c.toNat

deriving instance DecidableEq for Except

/-- The ledger a successful `CreateDebtNote` leaves: the re-encoded record in the
caller's collection and the digest of the submitted bytes in the world state. -/
def createdLedger (J : JsonCodec) (st : Ledger) (org : String) (payload : Bytes) (m : JMap) :
    Ledger :=
  { world := fun k =>
      if k = getSafeString (m.index "debtNoteID") then some (SHA256.sum256 payload)
      else st.world k
    priv := fun c k =>
      if c = buildCollectionName org ∧ k = getSafeString (m.index "debtNoteID") then
        some (J.marshal m)
      else st.priv c k }

/-! ## Example inputs -/

/-- A call by a client of `OrgA` on a peer of `OrgA`, with one transient field. -/
def orgACtx (key : String) (payload : Bytes) : Context :=
  ⟨some "OrgA", some "OrgA", fun k => if k = key then some payload else none⟩

/-- The note `DN1` of the specification's example, its amount the number 100. -/
def payloadNumeric : Bytes :=
  ascii "\x7b\"debtNoteID\":\"DN1\",\"debtyOrg\":\"OrgA\",\"debt\":100,\"redeemStatus\":\"False\"\x7d"

/-- The note `DN1` with its amount written as a string. -/
def payloadDN1 : Bytes :=
  ascii "\x7b\"debtNoteID\":\"DN1\",\"debtyOrg\":\"OrgA\",\"debt\":\"100\",\"redeemStatus\":\"False\"\x7d"

/-- The note `DN1` as `json.Marshal` writes it: keys in order, no white space. -/
def payloadSorted : Bytes :=
  ascii "\x7b\"debt\":\"100\",\"debtNoteID\":\"DN1\",\"debtyOrg\":\"OrgA\",\"redeemStatus\":\"False\"\x7d"

/-- The decoded note `DN1`. -/
def recordDN1 : JMap :=
  [("debt", JValue.str "100"), ("debtNoteID", JValue.str "DN1"), ("debtyOrg", JValue.str "OrgA"),
    ("redeemStatus", JValue.str "False")]

/-- A note naming `OrgB` as debtor. -/
def payloadOrgB : Bytes :=
  ascii "\x7b\"debtNoteID\":\"DN1\",\"debtyOrg\":\"OrgB\",\"debt\":\"100\",\"redeemStatus\":\"False\"\x7d"

/-- A ledger with a public entry under `DN1`. -/
def anchoredLedger : Ledger :=
  ⟨fun k => if k = "DN1" then some [1, 2, 3] else none, fun _ _ => none⟩

/-- The ledger a successful `RedeemDebtNote` leaves: the stored record `record`,
its `redeemStatus` set to `"True"`, re-encoded under the record's own
`debtNoteID` in the caller's collection. -/
def redeemedLedger (J : JsonCodec) (st : Ledger) (org : String) (record : JMap) : Ledger :=
  { st with priv := fun c k =>
      if c = buildCollectionName org ∧
          k = getSafeString ((record.set "redeemStatus" (JValue.str "True")).index "debtNoteID")
      then some (J.marshal (record.set "redeemStatus" (JValue.str "True")))
      else st.priv c k }

/-- A redeem request for `DN1`. -/
def payloadRedeem : Bytes := ascii "\x7b\"debtNoteID\":\"DN1\"\x7d"

/-- A ledger on which the collection of `OrgA` holds, under `DN1`, a record
whose debtor is `OrgB`. -/
def heldLedger : Ledger :=
  ⟨fun _ => none, fun c k => if c = "_implicit_org_OrgA" ∧ k = "DN1" then some payloadOrgB else none⟩

/-- A transfer request: `DN1` goes to `OrgB`. -/
def payloadNewOwner : Bytes := ascii "\x7b\"debtNoteID\":\"DN1\",\"newOwnerOrg\":\"OrgB\"\x7d"

/-- A call by a client of `OrgA` with the two transient fields of a transfer. -/
def transferCtx : Context :=
  ⟨some "OrgA", some "OrgA", fun k =>
    if k = "debtnote_new_owner" then some payloadNewOwner
    else if k = "debtnote_newproperties" then some payloadDN1 else none⟩

/-- The ledger a successful `DeleteDebtNote` leaves: the entry under `key` removed
from the caller's collection. -/
def deletedLedger (st : Ledger) (org key : String) : Ledger :=
  { st with priv := fun c k =>
      if c = buildCollectionName org ∧ k = key then none else st.priv c k }

/-- The ledger a successful `TransferDebtNote` leaves: the transferable payload
in the new owner's collection and the digest of the new-owner payload in the
world state under the id with the suffix `_TRANSFER`. -/
def transferredLedger (st : Ledger) (newOwnerOrg key : String) (transferable newOwner : Bytes) :
    Ledger :=
  { world := fun k =>
      if k = key ++ "_TRANSFER" then some (SHA256.sum256 newOwner) else st.world k
    priv := fun c k =>
      if c = buildCollectionName newOwnerOrg ∧ k = key then some transferable
      else st.priv c k }

/-! ## Transactions -/

/-- The operations of the contract; the three queries carry their arguments. -/
inductive Op where
  | createDebtNote
  | deleteDebtNote
  | transferDebtNote
  | redeemDebtNote
  | getDebtNote (debtNoteID : String)
  | getDebtNoteHash (debtNoteID orgID : String)
  | readWorldState (key : String)
  deriving DecidableEq, Repr

/-- What an operation returns on success. -/
inductive Reply where
  | done
  | bytes (b : Bytes)
  | text (s : String)
  deriving DecidableEq, Repr

/-- One invocation of the contract: the result and the ledger afterwards (the
queries leave the ledger as it is). -/
def invoke (J : JsonCodec) (op : Op) (ctx : Context) (st : Ledger) : Except Err Reply × Ledger :=
  match op with
  | .createDebtNote =>
    ((CreateDebtNote J ctx st).1.map fun _ => Reply.done, (CreateDebtNote J ctx st).2)
  | .deleteDebtNote =>
    ((DeleteDebtNote J ctx st).1.map fun _ => Reply.done, (DeleteDebtNote J ctx st).2)
  | .transferDebtNote =>
    ((TransferDebtNote J ctx st).1.map fun _ => Reply.done, (TransferDebtNote J ctx st).2)
  | .redeemDebtNote =>
    ((RedeemDebtNote J ctx st).1.map fun _ => Reply.done, (RedeemDebtNote J ctx st).2)
  | .getDebtNote debtNoteID => ((GetDebtNote ctx st debtNoteID).map Reply.bytes, st)
  | .getDebtNoteHash debtNoteID orgID =>
    ((GetDebtNoteHash st debtNoteID orgID).map Reply.text, st)
  | .readWorldState key => ((ReadWorldState st key).map Reply.text, st)

/-- A sequence of invocations, each with its own context, run in order. -/
def run (J : JsonCodec) : List (Op × Context) → Ledger → Ledger
  | [], st => st
  | (op, ctx) :: rest, st => run J rest (invoke J op ctx st).2

/-- The payloads submitted to `CreateDebtNote` or `TransferDebtNote` in a
sequence of invocations: the transient field `debtnote_properties` of a
creation, `debtnote_new_owner` of a transfer. -/
def submitted (tr : List (Op × Context)) (p : Bytes) : Prop :=
  ∃ step ∈ tr,
    (step.1 = Op.createDebtNote ∧ step.2.transient "debtnote_properties" = some p) ∨
    (step.1 = Op.transferDebtNote ∧ step.2.transient "debtnote_new_owner" = some p)

/-- The codec reads back what it wrote for `m`: `json.Unmarshal` of
`json.Marshal(m)` is `m`. -/
def JsonCodec.readsBack (J : JsonCodec) (m : JMap) : Prop :=
  J.unmarshal (J.marshal m) = some m

/-! ## More example inputs -/

/-- A call by a client of `OrgB` on a peer of `OrgB`, with one transient field. -/
def orgBCtx (key : String) (payload : Bytes) : Context :=
  ⟨some "OrgB", some "OrgB", fun k => if k = key then some payload else none⟩

/-- A second transfer request: `DN1` goes to `OrgC`. -/
def payloadNewOwnerC : Bytes := ascii "\x7b\"debtNoteID\":\"DN1\",\"newOwnerOrg\":\"OrgC\"\x7d"

/-- A call with the two transient fields of the transfer of `DN1` to `OrgC`. -/
def transferCtxC : Context :=
  ⟨some "OrgB", some "OrgB", fun k =>
    if k = "debtnote_new_owner" then some payloadNewOwnerC
    else if k = "debtnote_newproperties" then some payloadDN1 else none⟩

/-- The transfer of `DN1` to `OrgB`, submitted by a client of `OrgC` on a peer of
`OrgB`. -/
def transferCtxForeign : Context :=
  ⟨some "OrgC", some "OrgB", transferCtx.transient⟩

/-- The note `DN1` submitted with `redeemStatus` already `"True"`, in encoded
form. -/
def payloadRedeemed : Bytes :=
  ascii "\x7b\"debt\":\"100\",\"debtNoteID\":\"DN1\",\"debtyOrg\":\"OrgA\",\"redeemStatus\":\"True\"\x7d"

/-- The decoded note `DN1` with `redeemStatus` `"True"`. -/
def recordRedeemed : JMap :=
  [("debt", JValue.str "100"), ("debtNoteID", JValue.str "DN1"), ("debtyOrg", JValue.str "OrgA"),
    ("redeemStatus", JValue.str "True")]

/-- A record of `OrgA`, not redeemed, whose `debtNoteID` is `DN2`. -/
def payloadDN2 : Bytes :=
  ascii "\x7b\"debt\":\"100\",\"debtNoteID\":\"DN2\",\"debtyOrg\":\"OrgA\",\"redeemStatus\":\"False\"\x7d"

/-- The decoded record `DN2`. -/
def recordDN2 : JMap :=
  [("debt", JValue.str "100"), ("debtNoteID", JValue.str "DN2"), ("debtyOrg", JValue.str "OrgA"),
    ("redeemStatus", JValue.str "False")]

/-- The record `DN2` after redemption, in encoded form. -/
def payloadDN2Redeemed : Bytes :=
  ascii "\x7b\"debt\":\"100\",\"debtNoteID\":\"DN2\",\"debtyOrg\":\"OrgA\",\"redeemStatus\":\"True\"\x7d"

/-- A transfer request: `DN1` goes to `OrgA`. -/
def payloadNewOwnerA : Bytes := ascii "\x7b\"debtNoteID\":\"DN1\",\"newOwnerOrg\":\"OrgA\"\x7d"

/-- A transfer of `DN1` to `OrgA` that carries `transferable` as the record. -/
def transferToACtx (transferable : Bytes) : Context :=
  ⟨some "OrgB", some "OrgB", fun k =>
    if k = "debtnote_new_owner" then some payloadNewOwnerA
    else if k = "debtnote_newproperties" then some transferable else none⟩

/-- The ledger after `OrgA` has created `DN1` and redeemed it. -/
def redeemedState : Ledger :=
  run goJson [(Op.createDebtNote, orgACtx "debtnote_properties" payloadDN1),
    (Op.redeemDebtNote, orgACtx "debtnote_redeem" payloadRedeem)] Ledger.empty

/-- The ledger after `OrgA` has created `DN1` and `DN1` has been transferred to
`OrgB`. -/
def transferredState : Ledger :=
  run goJson [(Op.createDebtNote, orgACtx "debtnote_properties" payloadDN1),
    (Op.transferDebtNote, transferCtx)] Ledger.empty

/-! ## Sequences without transfer -/

/-- The sequence contains no `TransferDebtNote`. -/
def noTransfer (tr : List (Op × Context)) : Prop :=
  ∀ step ∈ tr, step.1 ≠ Op.transferDebtNote

/-- The codec reads back every record the sequence can store: the decoded
payload of each creation, as submitted and with `redeemStatus` set to `"True"`. -/
def createdRecordsReadBack (J : JsonCodec) (tr : List (Op × Context)) : Prop :=
  ∀ step ∈ tr, ∀ p m, step.1 = Op.createDebtNote →
    step.2.transient "debtnote_properties" = some p → J.unmarshal p = some m →
    J.readsBack m ∧ J.readsBack (m.set "redeemStatus" (JValue.str "True"))

/-- The invariant of the sequences without transfer: a private record has a
public entry under its key, one collection only holds a record under a key, and
a stored value is the encoding of a record that carries the key as `debtNoteID`,
as created or after redemption. -/
def Ledger.singleHolder (J : JsonCodec) (st : Ledger) : Prop :=
  (∀ c k, st.priv c k ≠ none → st.world k ≠ none) ∧
  (∀ c1 c2 k, st.priv c1 k ≠ none → st.priv c2 k ≠ none → c1 = c2) ∧
  (∀ c k b, st.priv c k = some b → ∃ m, getSafeString (m.index "debtNoteID") = k ∧
    J.readsBack m ∧ J.readsBack (m.set "redeemStatus" (JValue.str "True")) ∧
    (b = J.marshal m ∨ b = J.marshal (m.set "redeemStatus" (JValue.str "True"))))

/-! ## A stub whose calls may fail

The source tests `err != nil` after every call of the stub and after
`json.Marshal`. The definitions above take each read to succeed and each write
to fail on an empty key or collection name only. Here every call may fail, for
reasons outside the contract, and the operations are the same code over that
stub. -/

/-- Which calls fail: `GetTransient`, each read and each write of the stub (by
its arguments), and `json.Marshal` (by the map it is given). -/
structure Faults where
  getTransient : Bool
  getState : String → Bool
  getPrivateData : String → String → Bool
  getPrivateDataHash : String → String → Bool
  putState : String → Bytes → Bool
  putPrivateData : String → String → Bytes → Bool
  delPrivateData : String → String → Bool
  marshal : JMap → Bool

/-- No call fails for a reason outside the contract. -/
def noFaults : Faults :=
  ⟨false, fun _ => false, fun _ _ => false, fun _ _ => false, fun _ _ => false,
    fun _ _ _ => false, fun _ _ => false, fun _ => false⟩

/-- Every `PutState` fails, no other call does. -/
def refusePutState : Faults :=
  ⟨false, fun _ => false, fun _ _ => false, fun _ _ => false, fun _ _ => true,
    fun _ _ _ => false, fun _ _ => false, fun _ => false⟩

/-- The failures of an invocation on a stub whose calls may fail: those of `Err`
and, one per `fmt.Errorf` of the source, a failing `GetTransient`
(`error getting transient`), `GetState` (`failed to read from world state`),
`GetPrivateData` (`failed to get debtNote`), `GetPrivateDataHash` and
`json.Marshal` (`failed to create asset JSON`). -/
inductive Failure where
  | contract (e : Err)
  | getTransient
  | getState
  | getPrivateData
  | getPrivateDataHash
  | marshal
  deriving DecidableEq, Repr

namespace Faults

/-- `GetState` on the stub: `none` when the call fails. -/
def GetState (F : Faults) (st : Ledger) (key : String) : Option (Option Bytes) :=
  if F.getState key then none else some (st.GetState key)

/-- `GetPrivateData` on the stub: `none` when the call fails. -/
def GetPrivateData (F : Faults) (st : Ledger) (collection key : String) :
    Option (Option Bytes) :=
  if F.getPrivateData collection key then none else some (st.GetPrivateData collection key)

/-- `GetPrivateDataHash` on the stub: `none` when the call fails. -/
def GetPrivateDataHash (F : Faults) (st : Ledger) (collection key : String) :
    Option (Option Bytes) :=
  if F.getPrivateDataHash collection key then none
  else some (st.GetPrivateDataHash collection key)

/-- `PutState` on the stub: `none` when the call fails. -/
def PutState (F : Faults) (st : Ledger) (key : String) (value : Bytes) : Option Ledger :=
  if F.putState key value then none else st.PutState key value

/-- `PutPrivateData` on the stub: `none` when the call fails. -/
def PutPrivateData (F : Faults) (st : Ledger) (collection key : String) (value : Bytes) :
    Option Ledger :=
  if F.putPrivateData collection key value then none
  else st.PutPrivateData collection key value

/-- `DelPrivateData` on the stub: `none` when the call fails. -/
def DelPrivateData (F : Faults) (st : Ledger) (collection key : String) : Option Ledger :=
  if F.delPrivateData collection key then none else st.DelPrivateData collection key

/-- `json.Marshal`: `none` when the call fails. -/
def Marshal (F : Faults) (J : JsonCodec) (m : JMap) : Option Bytes :=
  if F.marshal m then none else some (J.marshal m)

end Faults

namespace Faulty

/-- Source: `SmartContract.CreateDebtNote`, every call of the stub fallible. The
ledger returned with a failure holds the writes made before it. -/
def CreateDebtNote (F : Faults) (J : JsonCodec) (ctx : Context) (st : Ledger) :
    Except Failure Unit × Ledger :=
  if F.getTransient then (.error .getTransient, st)
  else
    match ctx.transient "debtnote_properties" with
    | none => (.error (.contract (.transientKeyNotFound "debtnote_properties")), st)
    | some immutableDebtNoteJSON =>
      match J.unmarshal immutableDebtNoteJSON with
      | none => (.error (.contract .unmarshal), st)
      | some debtNoteInput =>
        if (getSafeString (debtNoteInput.index "debtNoteID")).length = 0 then
          (.error (.contract .emptyDebtNoteID), st)
        else if (getSafeString (debtNoteInput.index "debt")).length = 0 then
          (.error (.contract .emptyDebt), st)
        else
          match getClientOrgID ctx true with
          | .error err => (.error (.contract err), st)
          | .ok clientOrgID =>
            match F.GetState st (getSafeString (debtNoteInput.index "debtNoteID")) with
            | none => (.error .getState, st)
            | some (some _) =>
              (.error (.contract
                (.existsInWorldState (getSafeString (debtNoteInput.index "debtNoteID")))), st)
            | some none =>
              match F.GetPrivateData st (buildCollectionName clientOrgID)
                  (getSafeString (debtNoteInput.index "debtNoteID")) with
              | none => (.error .getPrivateData, st)
              | some (some _) =>
                (.error (.contract
                  (.existsInPrivateSpace (getSafeString (debtNoteInput.index "debtNoteID")))), st)
              | some none =>
                if getSafeString (debtNoteInput.index "debtyOrg") ≠ clientOrgID then
                  (.error (.contract .debtyOrgNotClient), st)
                else
                  match F.Marshal J debtNoteInput with
                  | none => (.error .marshal, st)
                  | some debtNoteBytes =>
                    match F.PutPrivateData st (buildCollectionName clientOrgID)
                        (getSafeString (debtNoteInput.index "debtNoteID")) debtNoteBytes with
                    | none => (.error (.contract .putPrivateData), st)
                    | some st1 =>
                      match F.PutState st1 (getSafeString (debtNoteInput.index "debtNoteID"))
                          (SHA256.sum256 immutableDebtNoteJSON) with
                      | none => (.error (.contract .putState), st1)
                      | some st2 => (.ok (), st2)

/-- Source: `SmartContract.DeleteDebtNote`, every call of the stub fallible. -/
def DeleteDebtNote (F : Faults) (J : JsonCodec) (ctx : Context) (st : Ledger) :
    Except Failure Unit × Ledger :=
  match getClientOrgID ctx false with
  | .error err => (.error (.contract err), st)
  | .ok clientOrgID =>
    if F.getTransient then (.error .getTransient, st)
    else
      match ctx.transient "debtnote_properties" with
      | none => (.error (.contract (.transientKeyNotFound "debtnote_properties")), st)
      | some immutableDebtNoteJSON =>
        match J.unmarshal immutableDebtNoteJSON with
        | none => (.error (.contract .unmarshal), st)
        | some debtNoteInput =>
          if (getSafeString (debtNoteInput.index "debtNoteID")).length = 0 then
            (.error (.contract .emptyDebtNoteID), st)
          else
            match F.GetPrivateData st (buildCollectionName clientOrgID)
                (getSafeString (debtNoteInput.index "debtNoteID")) with
            | none => (.error .getPrivateData, st)
            | some none =>
              (.error (.contract
                (.notInPrivateSpace (getSafeString (debtNoteInput.index "debtNoteID")))), st)
            | some (some _) =>
              match F.DelPrivateData st (buildCollectionName clientOrgID)
                  (getSafeString (debtNoteInput.index "debtNoteID")) with
              | none => (.error (.contract .delPrivateData), st)
              | some st1 => (.ok (), st1)

/-- Source: `SmartContract.TransferDebtNote`, every call of the stub fallible.
The ledger returned with a failure holds the writes made before it. -/
def TransferDebtNote (F : Faults) (J : JsonCodec) (ctx : Context) (st : Ledger) :
    Except Failure Unit × Ledger :=
  if F.getTransient then (.error .getTransient, st)
  else
    match ctx.transient "debtnote_new_owner" with
    | none => (.error (.contract (.transientKeyNotFound "debtnote_new_owner")), st)
    | some immutableDebtNoteJSON =>
      match ctx.transient "debtnote_newproperties" with
      | none => (.error (.contract (.transientKeyNotFound "debtnote_newproperties")), st)
      | some immutableTransferableDebtNoteJSON =>
        match J.unmarshal immutableDebtNoteJSON with
        | none => (.error (.contract .unmarshal), st)
        | some debtNoteInput =>
          if (getSafeString (debtNoteInput.index "debtNoteID")).length = 0 then
            (.error (.contract .emptyDebtNoteID), st)
          else if (getSafeString (debtNoteInput.index "newOwnerOrg")).length = 0 then
            (.error (.contract .emptyNewOwnerOrg), st)
          else
            match F.PutPrivateData st
                (buildCollectionName (getSafeString (debtNoteInput.index "newOwnerOrg")))
                (getSafeString (debtNoteInput.index "debtNoteID"))
                immutableTransferableDebtNoteJSON with
            | none => (.error (.contract .putPrivateData), st)
            | some st1 =>
              match F.PutState st1
                  (getSafeString (debtNoteInput.index "debtNoteID") ++ "_TRANSFER")
                  (SHA256.sum256 immutableDebtNoteJSON) with
              | none => (.error (.contract .putState), st1)
              | some st2 => (.ok (), st2)

/-- Source: `SmartContract.GetDebtNote`, the read fallible. -/
def GetDebtNote (F : Faults) (ctx : Context) (st : Ledger) (debtNoteID : String) :
    Except Failure Bytes :=
  match getClientImplicitCollectionName ctx with
  | .error err => .error (.contract err)
  | .ok collection =>
    match F.GetPrivateData st collection debtNoteID with
    | none => .error .getPrivateData
    | some none => .error (.contract (.privateDetailsAbsent debtNoteID))
    | some (some immutableProperties) => .ok immutableProperties

/-- Source: `SmartContract.GetDebtNoteHash`, the read fallible. -/
def GetDebtNoteHash (F : Faults) (st : Ledger) (debtNoteID : String) (orgID : String) :
    Except Failure String :=
  match F.GetPrivateDataHash st (buildCollectionName orgID) debtNoteID with
  | none => .error .getPrivateDataHash
  | some none => .error (.contract (.privateHashAbsent debtNoteID orgID))
  | some (some immutablePropertiesOnChainHash) => .ok (hexEncode immutablePropertiesOnChainHash)

/-- Source: `SmartContract.ReadWorldState`, the read fallible. -/
def ReadWorldState (F : Faults) (st : Ledger) (key : String) : Except Failure String :=
  match F.GetState st key with
  | none => .error .getState
  | some none => .error (.contract (.worldStateAbsent key))
  | some (some valueJSON) => .ok (hexEncode valueJSON)

/-- Source: `SmartContract.RedeemDebtNote`, every call of the stub fallible. -/
def RedeemDebtNote (F : Faults) (J : JsonCodec) (ctx : Context) (st : Ledger) :
    Except Failure Unit × Ledger :=
  if F.getTransient then (.error .getTransient, st)
  else
    match ctx.transient "debtnote_redeem" with
    | none => (.error (.contract (.transientKeyNotFound "debtnote_redeem")), st)
    | some immutableDebtNoteJSON =>
      match J.unmarshal immutableDebtNoteJSON with
      | none => (.error (.contract .unmarshal), st)
      | some debtNoteInput =>
        if (getSafeString (debtNoteInput.index "debtNoteID")).length = 0 then
          (.error (.contract .emptyDebtNoteID), st)
        else
          match getClientOrgID ctx true with
          | .error err => (.error (.contract err), st)
          | .ok clientOrgID =>
            match F.GetPrivateData st (buildCollectionName clientOrgID)
                (getSafeString (debtNoteInput.index "debtNoteID")) with
            | none => (.error .getPrivateData, st)
            | some none =>
              (.error (.contract
                (.notInPrivateSpace (getSafeString (debtNoteInput.index "debtNoteID")))), st)
            | some (some debtNoteAsBytes) =>
              match J.unmarshal debtNoteAsBytes with
              | none => (.error (.contract .unmarshal), st)
              | some debtNoteAsBytesInput =>
                if clientOrgID ≠ getSafeString (debtNoteAsBytesInput.index "debtyOrg") then
                  (.error (.contract (.notDebty clientOrgID)), st)
                else if getSafeString (debtNoteAsBytesInput.index "redeemStatus") ≠ "False" then
                  (.error (.contract .alreadyRedeemed), st)
                else
                  match F.Marshal J
                      (debtNoteAsBytesInput.set "redeemStatus" (JValue.str "True")) with
                  | none => (.error .marshal, st)
                  | some debtNoteBytes =>
                    match F.PutPrivateData st (buildCollectionName clientOrgID)
                        (getSafeString ((debtNoteAsBytesInput.set "redeemStatus"
                          (JValue.str "True")).index "debtNoteID")) debtNoteBytes with
                    | none => (.error (.contract .putPrivateData), st)
                    | some st1 => (.ok (), st1)

/-- One invocation of the contract on a stub whose calls may fail: the result
and the ledger the stub holds when the operation returns. -/
def invoke (F : Faults) (J : JsonCodec) (op : Op) (ctx : Context) (st : Ledger) :
    Except Failure Reply × Ledger :=
  match op with
  | .createDebtNote =>
    ((CreateDebtNote F J ctx st).1.map fun _ => Reply.done, (CreateDebtNote F J ctx st).2)
  | .deleteDebtNote =>
    ((DeleteDebtNote F J ctx st).1.map fun _ => Reply.done, (DeleteDebtNote F J ctx st).2)
  | .transferDebtNote =>
    ((TransferDebtNote F J ctx st).1.map fun _ => Reply.done, (TransferDebtNote F J ctx st).2)
  | .redeemDebtNote =>
    ((RedeemDebtNote F J ctx st).1.map fun _ => Reply.done, (RedeemDebtNote F J ctx st).2)
  | .getDebtNote debtNoteID => ((GetDebtNote F ctx st debtNoteID).map Reply.bytes, st)
  | .getDebtNoteHash debtNoteID orgID =>
    ((GetDebtNoteHash F st debtNoteID orgID).map Reply.text, st)
  | .readWorldState key => ((ReadWorldState F st key).map Reply.text, st)

end Faulty

/-! ## Basic facts -/

/-- The digest of `"abc"` (FIPS 180-4, one block). -/
theorem SHA256.sum256_abc :
    hexEncode (SHA256.sum256 (ascii "abc")) =
      "ba7816bf8f01cfea414140de5dae2223b00361a396177a9cb410ff61f20015ad" := by
  decide

/-- The digest of the 56-byte test message (FIPS 180-4, two blocks). -/
theorem SHA256.sum256_two_blocks :
    hexEncode (SHA256.sum256
      (ascii "abcdbcdecdefdefgefghfghighijhijkijkljklmklmnlmnomnopnopq")) =
      "248d6a61d20638b8e5c026930c3e6039a33ce45964ff2167f6ecedd419db06c1" := by
  decide

theorem strlen_eq_zero (s : String) : s.length = 0 ↔ s = "" := by
  constructor
  · intro h
    have : s.data = [] := List.length_eq_zero.mp h
    exact String.ext this
  · rintro rfl; rfl

theorem buildCollectionName_ne_empty (o : String) : buildCollectionName o ≠ "" := by
  intro h
  have := congrArg String.length h
  simp [buildCollectionName, String.length_append] at this
  exact absurd this.1 (by decide)

theorem buildCollectionName_inj {a b : String}
    (h : buildCollectionName a = buildCollectionName b) : a = b := by
  have := congrArg String.data h
  simp [buildCollectionName, String.data_append] at this
  exact String.ext this

theorem append_ne_empty (s t : String) (ht : t ≠ "") : s ++ t ≠ "" := by
  intro h
  have := congrArg String.length h
  simp [String.length_append] at this
  exact ht ((strlen_eq_zero t).mp this.2)

/-- `CreateDebtNote` on an input that passes every check. -/
theorem CreateDebtNote_eq_ok (J : JsonCodec) (ctx : Context) (st : Ledger) (p : Bytes)
    (m : JMap) (o : String)
    (hp : ctx.transient "debtnote_properties" = some p) (hm : J.unmarshal p = some m)
    (hid : getSafeString (m.index "debtNoteID") ≠ "")
    (hdebt : getSafeString (m.index "debt") ≠ "")
    (hc : ctx.clientMSPID = some o) (hpeer : ctx.peerMSPID = some o)
    (hw : st.world (getSafeString (m.index "debtNoteID")) = none)
    (hpriv : st.priv (buildCollectionName o) (getSafeString (m.index "debtNoteID")) = none)
    (ho : getSafeString (m.index "debtyOrg") = o) :
    CreateDebtNote J ctx st = (.ok (), createdLedger J st o p m) := by
  simp [CreateDebtNote, hp, hm, strlen_eq_zero, hid, hdebt, getClientOrgID,
    verifyClientOrgMatchesPeerOrg, hc, hpeer, Ledger.GetState, hw, Ledger.GetPrivateData, hpriv,
    ho, Ledger.PutPrivateData, Ledger.PutState, buildCollectionName_ne_empty, createdLedger]

/-- `getClientOrgID` with verification succeeds exactly when the client's MSP id
is known and equals the peer's. -/
theorem getClientOrgID_true_cases (ctx : Context) :
    (∃ e, getClientOrgID ctx true = .error e) ∨
    (∃ o, ctx.clientMSPID = some o ∧ ctx.peerMSPID = some o ∧
      getClientOrgID ctx true = .ok o) := by
  cases hc : ctx.clientMSPID with
  | none => exact Or.inl ⟨.clientOrgID, by simp [getClientOrgID, hc]⟩
  | some c =>
    cases hq : ctx.peerMSPID with
    | none =>
      exact Or.inl ⟨.peerOrgID, by simp [getClientOrgID, verifyClientOrgMatchesPeerOrg, hc, hq]⟩
    | some q =>
      by_cases hcq : c = q
      · subst hcq
        exact Or.inr ⟨c, rfl, rfl, by simp [getClientOrgID, verifyClientOrgMatchesPeerOrg, hc, hq]⟩
      · exact Or.inl ⟨.clientNotPeer c q,
          by simp [getClientOrgID, verifyClientOrgMatchesPeerOrg, hc, hq, hcq]⟩

/-- `CreateDebtNote` either fails and returns the ledger it was given, or passes
every check and returns `createdLedger`. -/
theorem CreateDebtNote_cases (J : JsonCodec) (ctx : Context) (st : Ledger) :
    (∃ e, CreateDebtNote J ctx st = (.error e, st)) ∨
    (∃ p m o, ctx.transient "debtnote_properties" = some p ∧ J.unmarshal p = some m ∧
      getSafeString (m.index "debtNoteID") ≠ "" ∧ getSafeString (m.index "debt") ≠ "" ∧
      ctx.clientMSPID = some o ∧ ctx.peerMSPID = some o ∧
      st.world (getSafeString (m.index "debtNoteID")) = none ∧
      st.priv (buildCollectionName o) (getSafeString (m.index "debtNoteID")) = none ∧
      getSafeString (m.index "debtyOrg") = o ∧
      CreateDebtNote J ctx st = (.ok (), createdLedger J st o p m)) := by
  cases hp : ctx.transient "debtnote_properties" with
  | none => exact Or.inl ⟨_, by simp [CreateDebtNote, hp]; rfl⟩
  | some p =>
    cases hm : J.unmarshal p with
    | none => exact Or.inl ⟨_, by simp [CreateDebtNote, hp, hm]; rfl⟩
    | some m =>
      by_cases hid : getSafeString (m.index "debtNoteID") = ""
      · exact Or.inl ⟨_, by simp [CreateDebtNote, hp, hm, strlen_eq_zero, hid]; rfl⟩
      by_cases hdebt : getSafeString (m.index "debt") = ""
      · exact Or.inl ⟨_, by simp [CreateDebtNote, hp, hm, strlen_eq_zero, hid, hdebt]; rfl⟩
      rcases getClientOrgID_true_cases ctx with ⟨e, he⟩ | ⟨o, hc, hq, ho⟩
      · exact Or.inl ⟨e, by simp [CreateDebtNote, hp, hm, strlen_eq_zero, hid, hdebt, he]⟩
      cases hw : st.world (getSafeString (m.index "debtNoteID")) with
      | some v =>
        exact Or.inl ⟨_, by
          simp [CreateDebtNote, hp, hm, strlen_eq_zero, hid, hdebt, ho, Ledger.GetState, hw]; rfl⟩
      | none =>
        cases hpr : st.priv (buildCollectionName o) (getSafeString (m.index "debtNoteID")) with
        | some v =>
          exact Or.inl ⟨_, by
            simp [CreateDebtNote, hp, hm, strlen_eq_zero, hid, hdebt, ho, Ledger.GetState, hw,
              Ledger.GetPrivateData, hpr]; rfl⟩
        | none =>
          by_cases hd : getSafeString (m.index "debtyOrg") = o
          · exact Or.inr ⟨p, m, o, rfl, hm, hid, hdebt, hc, hq, hw, hpr, hd,
              CreateDebtNote_eq_ok J ctx st p m o hp hm hid hdebt hc hq hw hpr hd⟩
          · exact Or.inl ⟨_, by
              simp [CreateDebtNote, hp, hm, strlen_eq_zero, hid, hdebt, ho, Ledger.GetState, hw,
                Ledger.GetPrivateData, hpr, hd]; rfl⟩

/-- A successful `CreateDebtNote` passed every check and left `createdLedger`. -/
theorem CreateDebtNote_ok_inv (J : JsonCodec) (ctx : Context) (st : Ledger) (p : Bytes)
    (m : JMap) (hp : ctx.transient "debtnote_properties" = some p) (hm : J.unmarshal p = some m)
    (hok : (CreateDebtNote J ctx st).1 = .ok ()) :
    ∃ o, ctx.clientMSPID = some o ∧ ctx.peerMSPID = some o ∧
      getSafeString (m.index "debtNoteID") ≠ "" ∧
      getSafeString (m.index "debtyOrg") = o ∧
      CreateDebtNote J ctx st = (.ok (), createdLedger J st o p m) := by
  rcases CreateDebtNote_cases J ctx st with ⟨e, he⟩ | ⟨p1, m1, o, hp1, hm1, hid, _, hc, hq, _, _, hd, h⟩
  · rw [he] at hok; cases hok
  · have hpp : p1 = p := Option.some.inj (hp1.symm.trans hp)
    subst hpp
    have hmm : m1 = m := Option.some.inj (hm1.symm.trans hm)
    subst hmm
    exact ⟨o, hc, hq, hid, hd, h⟩

/-! ## Creation -/

/-- `CreateDebtNote` succeeds for every ledger, caller and creation payload such
that the caller's org equals the executing node's org, the payload decodes to a
record with a non-empty string `debtNoteID`, a non-empty string `debt` and
`debtyOrg` equal to the caller's org, and the id has neither a public entry nor a
private record in the caller's collection. -/
theorem CreateDebtNote_succeeds (J : JsonCodec) (ctx : Context) (st : Ledger) (p : Bytes)
    (m : JMap) (o : String)
    (hp : ctx.transient "debtnote_properties" = some p) (hm : J.unmarshal p = some m)
    (hc : ctx.clientMSPID = some o) (hpeer : ctx.peerMSPID = some o)
    (hid : getSafeString (m.index "debtNoteID") ≠ "")
    (hdebt : getSafeString (m.index "debt") ≠ "")
    (ho : getSafeString (m.index "debtyOrg") = o)
    (hw : st.world (getSafeString (m.index "debtNoteID")) = none)
    (hpriv : st.priv (buildCollectionName o) (getSafeString (m.index "debtNoteID")) = none) :
    (CreateDebtNote J ctx st).1 = .ok () := by
  rw [CreateDebtNote_eq_ok J ctx st p m o hp hm hid hdebt hc hpeer hw hpriv ho]

/-- Example: `OrgA` creates `DN1`, amount `"100"`, on the empty ledger. -/
theorem CreateDebtNote_succeeds_witness :
    (CreateDebtNote goJson (orgACtx "debtnote_properties" payloadDN1) Ledger.empty).1 = .ok () :=
  CreateDebtNote_succeeds goJson (orgACtx "debtnote_properties" payloadDN1) Ledger.empty
    payloadDN1 recordDN1 "OrgA" rfl rfl rfl rfl (by decide) (by decide) rfl rfl rfl

/-- C1: the claim fails on the code at the specification's own example. The note
whose amount is the number 100 meets every condition of the claim (caller and
peer are `OrgA`, the id `DN1` is a non-empty string, the amount is present and
numeric, the debtor is `OrgA`, the ledger is empty), and `CreateDebtNote` rejects
it at the check of lines 83-85, `debt field must be a greater than zero`:
`getSafeString` turns every value that is not a string, the number 100 included,
into the empty string. The message of the check and the record declaration kept
in the comment at the head of the source (`Debt int`) have a numeric amount. -/
theorem CreateDebtNote_numeric_debt_rejected :
    (orgACtx "debtnote_properties" payloadNumeric).clientMSPID = some "OrgA" ∧
    (orgACtx "debtnote_properties" payloadNumeric).peerMSPID = some "OrgA" ∧
    goJson.unmarshal payloadNumeric =
      some [("debt", JValue.num 100 0), ("debtNoteID", JValue.str "DN1"),
        ("debtyOrg", JValue.str "OrgA"), ("redeemStatus", JValue.str "False")] ∧
    Ledger.empty.world "DN1" = none ∧
    Ledger.empty.priv (buildCollectionName "OrgA") "DN1" = none ∧
    (CreateDebtNote goJson (orgACtx "debtnote_properties" payloadNumeric) Ledger.empty).1 =
      .error .emptyDebt :=
  ⟨rfl, rfl, rfl, rfl, rfl, by decide⟩

/-- C2 (as amended): if `CreateDebtNote` with payload `p` succeeds, then
`GetDebtNote` for the same id by the same caller on the resulting ledger returns
`json.Marshal` of the decoded payload (the re-encoded record), which is the
submitted byte string `p` exactly when `p` is already in that encoded form. -/
theorem GetDebtNote_after_create (J : JsonCodec) (ctx : Context) (st : Ledger) (p : Bytes)
    (m : JMap) (hp : ctx.transient "debtnote_properties" = some p) (hm : J.unmarshal p = some m)
    (hok : (CreateDebtNote J ctx st).1 = .ok ()) :
    GetDebtNote ctx (CreateDebtNote J ctx st).2 (getSafeString (m.index "debtNoteID")) =
      .ok (J.marshal m) ∧
    (GetDebtNote ctx (CreateDebtNote J ctx st).2 (getSafeString (m.index "debtNoteID")) =
      .ok p ↔ J.marshal m = p) := by
  obtain ⟨o, hc, hq, -, -, h⟩ := CreateDebtNote_ok_inv J ctx st p m hp hm hok
  have key : GetDebtNote ctx (CreateDebtNote J ctx st).2 (getSafeString (m.index "debtNoteID")) =
      .ok (J.marshal m) := by
    simp [h, GetDebtNote, getClientImplicitCollectionName, getClientOrgID,
      verifyClientOrgMatchesPeerOrg, hc, hq, Ledger.GetPrivateData, createdLedger]
  refine ⟨key, ?_⟩
  rw [key]
  exact ⟨fun h => Except.ok.inj h, fun h => h ▸ rfl⟩

/-- Witness of C2: `OrgA` creates `DN1` from the payload in encoded form and
reads back those bytes. -/
theorem GetDebtNote_after_create_witness :
    GetDebtNote (orgACtx "debtnote_properties" payloadSorted)
        (CreateDebtNote goJson (orgACtx "debtnote_properties" payloadSorted) Ledger.empty).2
        (getSafeString (recordDN1.index "debtNoteID")) = .ok (goJson.marshal recordDN1) ∧
    (GetDebtNote (orgACtx "debtnote_properties" payloadSorted)
        (CreateDebtNote goJson (orgACtx "debtnote_properties" payloadSorted) Ledger.empty).2
        (getSafeString (recordDN1.index "debtNoteID")) = .ok payloadSorted ↔
      goJson.marshal recordDN1 = payloadSorted) :=
  GetDebtNote_after_create goJson (orgACtx "debtnote_properties" payloadSorted) Ledger.empty
    payloadSorted recordDN1 rfl rfl (by decide)

/-- C2, counterexample: `OrgA` creates `DN1` from a payload whose keys are not in
key order; the creation succeeds and `GetDebtNote` returns the re-encoded
record, which is not the submitted byte string. -/
theorem GetDebtNote_after_create_not_submitted_bytes :
    (CreateDebtNote goJson (orgACtx "debtnote_properties" payloadDN1) Ledger.empty).1 = .ok () ∧
    GetDebtNote (orgACtx "debtnote_properties" payloadDN1)
      (CreateDebtNote goJson (orgACtx "debtnote_properties" payloadDN1) Ledger.empty).2 "DN1" =
      .ok payloadSorted ∧
    GetDebtNote (orgACtx "debtnote_properties" payloadDN1)
      (CreateDebtNote goJson (orgACtx "debtnote_properties" payloadDN1) Ledger.empty).2 "DN1" ≠
      .ok payloadDN1 := by
  refine ⟨by decide, by decide, by decide⟩

/-- C3: if `CreateDebtNote` with payload `p`, decoded id `i`, succeeds, then
`ReadWorldState(i)` on the resulting ledger succeeds and returns the lowercase
hexadecimal encoding of SHA-256 of the raw bytes `p`. -/
theorem ReadWorldState_after_create (J : JsonCodec) (ctx : Context) (st : Ledger) (p : Bytes)
    (m : JMap) (hp : ctx.transient "debtnote_properties" = some p) (hm : J.unmarshal p = some m)
    (hok : (CreateDebtNote J ctx st).1 = .ok ()) :
    ReadWorldState (CreateDebtNote J ctx st).2 (getSafeString (m.index "debtNoteID")) =
      .ok (hexEncode (SHA256.sum256 p)) := by
  obtain ⟨o, -, -, -, -, h⟩ := CreateDebtNote_ok_inv J ctx st p m hp hm hok
  simp [h, ReadWorldState, Ledger.GetState, createdLedger]

/-- Witness of C3: after `OrgA` creates `DN1`, the world state holds the digest
of the submitted bytes. -/
theorem ReadWorldState_after_create_witness :
    ReadWorldState
        (CreateDebtNote goJson (orgACtx "debtnote_properties" payloadDN1) Ledger.empty).2
        (getSafeString (recordDN1.index "debtNoteID")) =
      .ok (hexEncode (SHA256.sum256 payloadDN1)) :=
  ReadWorldState_after_create goJson (orgACtx "debtnote_properties" payloadDN1) Ledger.empty
    payloadDN1 recordDN1 rfl rfl (by decide)

/-- C4: for every ledger, caller and creation payload whose `debtyOrg` differs
from the caller's org, `CreateDebtNote` fails and returns the ledger unchanged:
the world state and every private collection are as before the call. -/
theorem CreateDebtNote_other_debtor_fails (J : JsonCodec) (ctx : Context) (st : Ledger)
    (p : Bytes) (m : JMap) (c : String)
    (hp : ctx.transient "debtnote_properties" = some p) (hm : J.unmarshal p = some m)
    (hc : ctx.clientMSPID = some c) (hd : getSafeString (m.index "debtyOrg") ≠ c) :
    (∃ e, (CreateDebtNote J ctx st).1 = .error e) ∧ (CreateDebtNote J ctx st).2 = st := by
  rcases CreateDebtNote_cases J ctx st with ⟨e, he⟩ | ⟨p1, m1, o, hp1, hm1, -, -, hc1, -, -, -, hd1, -⟩
  · rw [he]; exact ⟨⟨e, rfl⟩, rfl⟩
  · have hpp : p1 = p := Option.some.inj (hp1.symm.trans hp)
    subst hpp
    have hmm : m1 = m := Option.some.inj (hm1.symm.trans hm)
    subst hmm
    have hoc : o = c := Option.some.inj (hc1.symm.trans hc)
    exact absurd (hd1.trans hoc) hd

/-- Witness of C4: `OrgA` submits a note naming `OrgB` as debtor. -/
theorem CreateDebtNote_other_debtor_fails_witness :
    (∃ e, (CreateDebtNote goJson (orgACtx "debtnote_properties" payloadOrgB) Ledger.empty).1 =
      .error e) ∧
    (CreateDebtNote goJson (orgACtx "debtnote_properties" payloadOrgB) Ledger.empty).2 =
      Ledger.empty :=
  CreateDebtNote_other_debtor_fails goJson (orgACtx "debtnote_properties" payloadOrgB)
    Ledger.empty payloadOrgB
    [("debt", JValue.str "100"), ("debtNoteID", JValue.str "DN1"),
      ("debtyOrg", JValue.str "OrgB"), ("redeemStatus", JValue.str "False")]
    "OrgA" rfl rfl rfl (by decide)

/-- C5: for every ledger, caller and creation payload with id `i`, if the world
state already holds an entry under `i`, or the caller's collection already holds
a record under `i`, then `CreateDebtNote` fails. -/
theorem CreateDebtNote_existing_id_fails (J : JsonCodec) (ctx : Context) (st : Ledger)
    (p : Bytes) (m : JMap) (c : String)
    (hp : ctx.transient "debtnote_properties" = some p) (hm : J.unmarshal p = some m)
    (hc : ctx.clientMSPID = some c)
    (hex : st.world (getSafeString (m.index "debtNoteID")) ≠ none ∨
      st.priv (buildCollectionName c) (getSafeString (m.index "debtNoteID")) ≠ none) :
    ∃ e, (CreateDebtNote J ctx st).1 = .error e := by
  rcases CreateDebtNote_cases J ctx st with ⟨e, he⟩ | ⟨p1, m1, o, hp1, hm1, -, -, hc1, -, hw, hpr, -, -⟩
  · rw [he]; exact ⟨e, rfl⟩
  · have hpp : p1 = p := Option.some.inj (hp1.symm.trans hp)
    subst hpp
    have hmm : m1 = m := Option.some.inj (hm1.symm.trans hm)
    subst hmm
    have hoc : o = c := Option.some.inj (hc1.symm.trans hc)
    subst hoc
    rcases hex with h | h
    · exact absurd hw h
    · exact absurd hpr h

/-- Witness of C5: `OrgA` creates `DN1` on a ledger that has a public entry
under `DN1`. -/
theorem CreateDebtNote_existing_id_fails_witness :
    ∃ e, (CreateDebtNote goJson (orgACtx "debtnote_properties" payloadDN1) anchoredLedger).1 =
      .error e :=
  CreateDebtNote_existing_id_fails goJson (orgACtx "debtnote_properties" payloadDN1)
    anchoredLedger payloadDN1 recordDN1 "OrgA" rfl rfl rfl (Or.inl (by decide))

/-! ## Redemption -/

theorem JMap.index_set_same (m : JMap) (k : String) (v : JValue) : (m.set k v).index k = v := by
  induction m with
  | nil => simp [JMap.set, JMap.index]
  | cons kv rest ih =>
    obtain ⟨k1, v1⟩ := kv
    by_cases h1 : k1 = k
    · simp [JMap.set, JMap.index, h1]
    · by_cases h2 : JMap.keyLt k.data k1.data = true
      · simp [JMap.set, JMap.index, h1, h2]
      · simp [JMap.set, JMap.index, h1, h2, ih]

theorem JMap.index_set_other (m : JMap) (k : String) (v : JValue) (key : String)
    (hne : key ≠ k) : (m.set k v).index key = m.index key := by
  have hne1 : ¬ k = key := fun h => hne h.symm
  induction m with
  | nil => simp [JMap.set, JMap.index, hne1]
  | cons kv rest ih =>
    obtain ⟨k1, v1⟩ := kv
    by_cases h1 : k1 = k
    · subst h1; simp [JMap.set, JMap.index, hne1]
    · by_cases h2 : JMap.keyLt k.data k1.data = true
      · simp [JMap.set, JMap.index, h1, h2, hne1]
      · simp [JMap.set, JMap.index, h1, h2, ih]

/-- `RedeemDebtNote` on an input that passes every check. -/
theorem RedeemDebtNote_eq_ok (J : JsonCodec) (ctx : Context) (st : Ledger) (r : Bytes)
    (rm : JMap) (o : String) (b : Bytes) (record : JMap)
    (hr : ctx.transient "debtnote_redeem" = some r) (hrm : J.unmarshal r = some rm)
    (hid : getSafeString (rm.index "debtNoteID") ≠ "")
    (hc : ctx.clientMSPID = some o) (hpeer : ctx.peerMSPID = some o)
    (hb : st.priv (buildCollectionName o) (getSafeString (rm.index "debtNoteID")) = some b)
    (hrec : J.unmarshal b = some record)
    (hd : getSafeString (record.index "debtyOrg") = o)
    (hs : getSafeString (record.index "redeemStatus") = "False")
    (hkey : getSafeString (record.index "debtNoteID") ≠ "") :
    RedeemDebtNote J ctx st = (.ok (), redeemedLedger J st o record) := by
  have hk : getSafeString ((record.set "redeemStatus" (JValue.str "True")).index "debtNoteID")
      = getSafeString (record.index "debtNoteID") := by
    rw [JMap.index_set_other _ _ _ _ (by decide)]
  simp [RedeemDebtNote, hr, hrm, strlen_eq_zero, hid, getClientOrgID,
    verifyClientOrgMatchesPeerOrg, hc, hpeer, Ledger.GetPrivateData, hb, hrec, hd, hs,
    Ledger.PutPrivateData, buildCollectionName_ne_empty, redeemedLedger, hk, hkey]

/-- `RedeemDebtNote` either fails and returns the ledger it was given, or passes
every check and returns `redeemedLedger`. -/
theorem RedeemDebtNote_cases (J : JsonCodec) (ctx : Context) (st : Ledger) :
    (∃ e, RedeemDebtNote J ctx st = (.error e, st)) ∨
    (∃ r rm o b record, ctx.transient "debtnote_redeem" = some r ∧ J.unmarshal r = some rm ∧
      getSafeString (rm.index "debtNoteID") ≠ "" ∧
      ctx.clientMSPID = some o ∧ ctx.peerMSPID = some o ∧
      st.priv (buildCollectionName o) (getSafeString (rm.index "debtNoteID")) = some b ∧
      J.unmarshal b = some record ∧
      getSafeString (record.index "debtyOrg") = o ∧
      getSafeString (record.index "redeemStatus") = "False" ∧
      getSafeString (record.index "debtNoteID") ≠ "" ∧
      RedeemDebtNote J ctx st = (.ok (), redeemedLedger J st o record)) := by
  cases hr : ctx.transient "debtnote_redeem" with
  | none => exact Or.inl ⟨_, by simp [RedeemDebtNote, hr]; rfl⟩
  | some r =>
    cases hrm : J.unmarshal r with
    | none => exact Or.inl ⟨_, by simp [RedeemDebtNote, hr, hrm]; rfl⟩
    | some rm =>
      by_cases hid : getSafeString (rm.index "debtNoteID") = ""
      · exact Or.inl ⟨_, by simp [RedeemDebtNote, hr, hrm, strlen_eq_zero, hid]; rfl⟩
      rcases getClientOrgID_true_cases ctx with ⟨e, he⟩ | ⟨o, hc, hq, ho⟩
      · exact Or.inl ⟨e, by simp [RedeemDebtNote, hr, hrm, strlen_eq_zero, hid, he]⟩
      cases hb : st.priv (buildCollectionName o) (getSafeString (rm.index "debtNoteID")) with
      | none =>
        exact Or.inl ⟨_, by
          simp [RedeemDebtNote, hr, hrm, strlen_eq_zero, hid, ho, Ledger.GetPrivateData, hb]; rfl⟩
      | some b =>
        cases hrec : J.unmarshal b with
        | none =>
          exact Or.inl ⟨_, by
            simp [RedeemDebtNote, hr, hrm, strlen_eq_zero, hid, ho, Ledger.GetPrivateData, hb,
              hrec]; rfl⟩
        | some record =>
          by_cases hd : getSafeString (record.index "debtyOrg") = o
          · by_cases hs : getSafeString (record.index "redeemStatus") = "False"
            · by_cases hkey : getSafeString (record.index "debtNoteID") = ""
              · have hk : getSafeString
                    ((record.set "redeemStatus" (JValue.str "True")).index "debtNoteID") = "" := by
                  rw [JMap.index_set_other _ _ _ _ (by decide)]; exact hkey
                exact Or.inl ⟨.putPrivateData, by
                  simp [RedeemDebtNote, hr, hrm, strlen_eq_zero, hid, ho, Ledger.GetPrivateData,
                    hb, hrec, hd, hs, Ledger.PutPrivateData, hk]⟩
              · exact Or.inr ⟨r, rm, o, b, record, rfl, hrm, hid, hc, hq, hb, hrec, hd, hs, hkey,
                  RedeemDebtNote_eq_ok J ctx st r rm o b record hr hrm hid hc hq hb hrec hd hs
                    hkey⟩
            · exact Or.inl ⟨_, by
                simp [RedeemDebtNote, hr, hrm, strlen_eq_zero, hid, ho, Ledger.GetPrivateData, hb,
                  hrec, hd, hs]; rfl⟩
          · have hd1 : ¬ o = getSafeString (record.index "debtyOrg") := fun h => hd h.symm
            exact Or.inl ⟨_, by
              simp [RedeemDebtNote, hr, hrm, strlen_eq_zero, hid, ho, Ledger.GetPrivateData, hb,
                hrec, hd1]; rfl⟩

/-- `RedeemDebtNote` on a stored record that is already redeemed. -/
theorem RedeemDebtNote_eq_alreadyRedeemed (J : JsonCodec) (ctx : Context) (st : Ledger)
    (r : Bytes) (rm : JMap) (o : String) (b : Bytes) (record : JMap)
    (hr : ctx.transient "debtnote_redeem" = some r) (hrm : J.unmarshal r = some rm)
    (hid : getSafeString (rm.index "debtNoteID") ≠ "")
    (hc : ctx.clientMSPID = some o) (hpeer : ctx.peerMSPID = some o)
    (hb : st.priv (buildCollectionName o) (getSafeString (rm.index "debtNoteID")) = some b)
    (hrec : J.unmarshal b = some record)
    (hd : getSafeString (record.index "debtyOrg") = o)
    (hs : getSafeString (record.index "redeemStatus") ≠ "False") :
    RedeemDebtNote J ctx st = (.error .alreadyRedeemed, st) := by
  simp [RedeemDebtNote, hr, hrm, strlen_eq_zero, hid, getClientOrgID,
    verifyClientOrgMatchesPeerOrg, hc, hpeer, Ledger.GetPrivateData, hb, hrec, hd, hs]

/-- C6: for every note stored by a successful `CreateDebtNote` whose payload
carries `redeemStatus` `"False"`, when the creating org (on its own peer, as at
creation) calls `RedeemDebtNote` for that id twice in sequence, the first call
succeeds and leaves a stored record that decodes with `redeemStatus` `"True"`,
and the second call fails. `hrt1` and `hrt2` say that `json.Unmarshal` reads
back what `json.Marshal` wrote for the record before and after the redemption,
as `encoding/json` does. -/
theorem RedeemDebtNote_twice (J : JsonCodec) (ctxC ctxR : Context) (st : Ledger)
    (p : Bytes) (m : JMap) (r : Bytes) (rm : JMap)
    (hp : ctxC.transient "debtnote_properties" = some p) (hm : J.unmarshal p = some m)
    (hok : (CreateDebtNote J ctxC st).1 = .ok ())
    (hstatus : getSafeString (m.index "redeemStatus") = "False")
    (hrt1 : J.unmarshal (J.marshal m) = some m)
    (hrt2 : J.unmarshal (J.marshal (m.set "redeemStatus" (JValue.str "True"))) =
      some (m.set "redeemStatus" (JValue.str "True")))
    (hclient : ctxR.clientMSPID = ctxC.clientMSPID) (hpeer : ctxR.peerMSPID = ctxC.peerMSPID)
    (hr : ctxR.transient "debtnote_redeem" = some r) (hrm : J.unmarshal r = some rm)
    (hrid : getSafeString (rm.index "debtNoteID") = getSafeString (m.index "debtNoteID")) :
    (RedeemDebtNote J ctxR (CreateDebtNote J ctxC st).2).1 = .ok () ∧
    (∃ o b record, ctxC.clientMSPID = some o ∧
      (RedeemDebtNote J ctxR (CreateDebtNote J ctxC st).2).2.priv (buildCollectionName o)
        (getSafeString (m.index "debtNoteID")) = some b ∧
      J.unmarshal b = some record ∧ getSafeString (record.index "redeemStatus") = "True") ∧
    (RedeemDebtNote J ctxR (RedeemDebtNote J ctxR (CreateDebtNote J ctxC st).2).2).1 =
      .error .alreadyRedeemed := by
  obtain ⟨o, hc, hq, hid, hd, h⟩ := CreateDebtNote_ok_inv J ctxC st p m hp hm hok
  have hcR : ctxR.clientMSPID = some o := hclient.trans hc
  have hqR : ctxR.peerMSPID = some o := hpeer.trans hq
  have hidR : getSafeString (rm.index "debtNoteID") ≠ "" := by rw [hrid]; exact hid
  have hk : getSafeString ((m.set "redeemStatus" (JValue.str "True")).index "debtNoteID")
      = getSafeString (m.index "debtNoteID") := by
    rw [JMap.index_set_other _ _ _ _ (by decide)]
  have hstored : (createdLedger J st o p m).priv (buildCollectionName o)
      (getSafeString (rm.index "debtNoteID")) = some (J.marshal m) := by
    simp [createdLedger, hrid]
  have h1 := RedeemDebtNote_eq_ok J ctxR (createdLedger J st o p m) r rm o (J.marshal m) m
    hr hrm hidR hcR hqR hstored hrt1 hd hstatus hid
  have hstored2 : (redeemedLedger J (createdLedger J st o p m) o m).priv (buildCollectionName o)
      (getSafeString (rm.index "debtNoteID")) =
      some (J.marshal (m.set "redeemStatus" (JValue.str "True"))) := by
    simp [redeemedLedger, hrid, hk]
  have hd2 : getSafeString ((m.set "redeemStatus" (JValue.str "True")).index "debtyOrg") = o := by
    rw [JMap.index_set_other _ _ _ _ (by decide)]; exact hd
  have hs2 : getSafeString ((m.set "redeemStatus" (JValue.str "True")).index "redeemStatus")
      = "True" := by
    rw [JMap.index_set_same]; rfl
  have h2 := RedeemDebtNote_eq_alreadyRedeemed J ctxR
    (redeemedLedger J (createdLedger J st o p m) o m) r rm o _ _ hr hrm hidR hcR hqR hstored2
    hrt2 hd2 (by rw [hs2]; decide)
  rw [h]
  simp only
  rw [h1]
  simp only
  rw [h2]
  refine ⟨by trivial, ⟨o, _, _, hc, ?_, hrt2, hs2⟩, by trivial⟩
  rw [← hrid]; exact hstored2

/-- Witness of C6: `OrgA` creates `DN1` and redeems it twice. -/
theorem RedeemDebtNote_twice_witness :
    (RedeemDebtNote goJson (orgACtx "debtnote_redeem" payloadRedeem)
      (CreateDebtNote goJson (orgACtx "debtnote_properties" payloadDN1) Ledger.empty).2).1 =
      .ok () ∧
    (∃ o b record, (orgACtx "debtnote_properties" payloadDN1).clientMSPID = some o ∧
      (RedeemDebtNote goJson (orgACtx "debtnote_redeem" payloadRedeem)
        (CreateDebtNote goJson (orgACtx "debtnote_properties" payloadDN1) Ledger.empty).2).2.priv
        (buildCollectionName o) (getSafeString (recordDN1.index "debtNoteID")) = some b ∧
      goJson.unmarshal b = some record ∧
      getSafeString (record.index "redeemStatus") = "True") ∧
    (RedeemDebtNote goJson (orgACtx "debtnote_redeem" payloadRedeem)
      (RedeemDebtNote goJson (orgACtx "debtnote_redeem" payloadRedeem)
        (CreateDebtNote goJson (orgACtx "debtnote_properties" payloadDN1) Ledger.empty).2).2).1 =
      .error .alreadyRedeemed :=
  RedeemDebtNote_twice goJson (orgACtx "debtnote_properties" payloadDN1)
    (orgACtx "debtnote_redeem" payloadRedeem) Ledger.empty payloadDN1 recordDN1 payloadRedeem
    [("debtNoteID", JValue.str "DN1")] rfl rfl (by decide) rfl rfl rfl rfl rfl rfl rfl rfl

/-- C7: for every ledger, caller and id such that the caller's collection holds
a record under the id whose `debtyOrg` differs from the caller's org,
`RedeemDebtNote` for that id fails and leaves the ledger, and so the stored
record and its `redeemStatus`, unchanged. -/
theorem RedeemDebtNote_other_debtor_fails (J : JsonCodec) (ctx : Context) (st : Ledger)
    (r : Bytes) (rm : JMap) (c : String) (b : Bytes) (record : JMap)
    (hr : ctx.transient "debtnote_redeem" = some r) (hrm : J.unmarshal r = some rm)
    (hc : ctx.clientMSPID = some c)
    (hb : st.priv (buildCollectionName c) (getSafeString (rm.index "debtNoteID")) = some b)
    (hrec : J.unmarshal b = some record)
    (hd : getSafeString (record.index "debtyOrg") ≠ c) :
    (∃ e, (RedeemDebtNote J ctx st).1 = .error e) ∧ (RedeemDebtNote J ctx st).2 = st ∧
    (RedeemDebtNote J ctx st).2.priv (buildCollectionName c)
      (getSafeString (rm.index "debtNoteID")) = some b := by
  rcases RedeemDebtNote_cases J ctx st with
    ⟨e, he⟩ | ⟨r1, rm1, o, b1, rec1, hr1, hrm1, -, hc1, -, hb1, hrec1, hd1, -, -, -⟩
  · rw [he]; exact ⟨⟨e, rfl⟩, rfl, hb⟩
  · have hrr : r1 = r := Option.some.inj (hr1.symm.trans hr)
    subst hrr
    have hmm : rm1 = rm := Option.some.inj (hrm1.symm.trans hrm)
    subst hmm
    have hoc : o = c := Option.some.inj (hc1.symm.trans hc)
    subst hoc
    have hbb : b1 = b := Option.some.inj (hb1.symm.trans hb)
    subst hbb
    have hrec2 : rec1 = record := Option.some.inj (hrec1.symm.trans hrec)
    subst hrec2
    exact absurd hd1 hd

/-- Witness of C7: `OrgA` redeems `DN1`, which its collection holds with debtor
`OrgB`. -/
theorem RedeemDebtNote_other_debtor_fails_witness :
    (∃ e, (RedeemDebtNote goJson (orgACtx "debtnote_redeem" payloadRedeem) heldLedger).1 =
      .error e) ∧
    (RedeemDebtNote goJson (orgACtx "debtnote_redeem" payloadRedeem) heldLedger).2 = heldLedger ∧
    (RedeemDebtNote goJson (orgACtx "debtnote_redeem" payloadRedeem) heldLedger).2.priv
      (buildCollectionName "OrgA") (getSafeString (JMap.index [("debtNoteID", JValue.str "DN1")]
        "debtNoteID")) = some payloadOrgB :=
  RedeemDebtNote_other_debtor_fails goJson (orgACtx "debtnote_redeem" payloadRedeem) heldLedger
    payloadRedeem [("debtNoteID", JValue.str "DN1")] "OrgA" payloadOrgB
    [("debt", JValue.str "100"), ("debtNoteID", JValue.str "DN1"),
      ("debtyOrg", JValue.str "OrgB"), ("redeemStatus", JValue.str "False")]
    rfl rfl rfl rfl rfl (by decide)

/-! ## Deletion and transfer -/

/-- C8: for every ledger, caller and payload with non-empty id `i`: if the
caller's collection holds no record under `i`, `DeleteDebtNote` fails; if it
holds one, `DeleteDebtNote` succeeds, the record is absent afterwards, and a
subsequent `GetDebtNote(i)` by the same org fails (with the failure for an
absent record when the org calls on its own peer, the one case in which
`GetDebtNote` reads the collection at all). -/
theorem DeleteDebtNote_then_get (J : JsonCodec) (ctx ctxG : Context) (st : Ledger) (p : Bytes)
    (m : JMap) (c : String)
    (hc : ctx.clientMSPID = some c) (hcG : ctxG.clientMSPID = some c)
    (hp : ctx.transient "debtnote_properties" = some p) (hm : J.unmarshal p = some m)
    (hid : getSafeString (m.index "debtNoteID") ≠ "") :
    (st.priv (buildCollectionName c) (getSafeString (m.index "debtNoteID")) = none →
      ∃ e, (DeleteDebtNote J ctx st).1 = .error e) ∧
    (st.priv (buildCollectionName c) (getSafeString (m.index "debtNoteID")) ≠ none →
      (DeleteDebtNote J ctx st).1 = .ok () ∧
      (DeleteDebtNote J ctx st).2.priv (buildCollectionName c)
        (getSafeString (m.index "debtNoteID")) = none ∧
      (∃ e, GetDebtNote ctxG (DeleteDebtNote J ctx st).2 (getSafeString (m.index "debtNoteID"))
        = .error e) ∧
      (ctxG.peerMSPID = some c →
        GetDebtNote ctxG (DeleteDebtNote J ctx st).2 (getSafeString (m.index "debtNoteID")) =
          .error (.privateDetailsAbsent (getSafeString (m.index "debtNoteID"))))) := by
  constructor
  · intro habs
    exact ⟨_, by
      simp [DeleteDebtNote, getClientOrgID, hc, hp, hm, strlen_eq_zero, hid,
        Ledger.GetPrivateData, habs]; rfl⟩
  · intro hpres
    obtain ⟨b, hb⟩ := Option.ne_none_iff_exists'.mp hpres
    have hdel : DeleteDebtNote J ctx st =
        (.ok (), deletedLedger st c (getSafeString (m.index "debtNoteID"))) := by
      simp [DeleteDebtNote, getClientOrgID, hc, hp, hm, strlen_eq_zero, hid,
        Ledger.GetPrivateData, hb, Ledger.DelPrivateData, buildCollectionName_ne_empty,
        deletedLedger]
    rw [hdel]
    refine ⟨rfl, by simp [deletedLedger], ?_, ?_⟩
    · cases hq : ctxG.peerMSPID with
      | none =>
        exact ⟨_, by
          simp [GetDebtNote, getClientImplicitCollectionName, getClientOrgID,
            verifyClientOrgMatchesPeerOrg, hcG, hq]; rfl⟩
      | some q =>
        by_cases hcq : c = q
        · subst hcq
          exact ⟨_, by
            simp [GetDebtNote, getClientImplicitCollectionName, getClientOrgID,
              verifyClientOrgMatchesPeerOrg, hcG, hq, Ledger.GetPrivateData, deletedLedger]; rfl⟩
        · exact ⟨_, by
            simp [GetDebtNote, getClientImplicitCollectionName, getClientOrgID,
              verifyClientOrgMatchesPeerOrg, hcG, hq, hcq]; rfl⟩
    · intro hq
      simp [GetDebtNote, getClientImplicitCollectionName, getClientOrgID,
        verifyClientOrgMatchesPeerOrg, hcG, hq, Ledger.GetPrivateData, deletedLedger]

/-- Witness of C8: `OrgA` deletes `DN1` from a collection that holds it, and
from the empty ledger. -/
theorem DeleteDebtNote_then_get_witness :
    (∃ e, (DeleteDebtNote goJson (orgACtx "debtnote_properties" payloadRedeem) Ledger.empty).1 =
      .error e) ∧
    (DeleteDebtNote goJson (orgACtx "debtnote_properties" payloadRedeem) heldLedger).1 = .ok () ∧
    GetDebtNote (orgACtx "debtnote_properties" payloadRedeem)
      (DeleteDebtNote goJson (orgACtx "debtnote_properties" payloadRedeem) heldLedger).2 "DN1" =
      .error (.privateDetailsAbsent "DN1") :=
  ⟨(DeleteDebtNote_then_get goJson (orgACtx "debtnote_properties" payloadRedeem)
      (orgACtx "debtnote_properties" payloadRedeem) Ledger.empty payloadRedeem
      [("debtNoteID", JValue.str "DN1")] "OrgA" rfl rfl rfl rfl (by decide)).1 rfl,
    ((DeleteDebtNote_then_get goJson (orgACtx "debtnote_properties" payloadRedeem)
      (orgACtx "debtnote_properties" payloadRedeem) heldLedger payloadRedeem
      [("debtNoteID", JValue.str "DN1")] "OrgA" rfl rfl rfl rfl (by decide)).2 (by decide)).1,
    ((DeleteDebtNote_then_get goJson (orgACtx "debtnote_properties" payloadRedeem)
      (orgACtx "debtnote_properties" payloadRedeem) heldLedger payloadRedeem
      [("debtNoteID", JValue.str "DN1")] "OrgA" rfl rfl rfl rfl (by decide)).2
        (by decide)).2.2.2 rfl⟩

/-- C9: for every ledger, every `debtnote_new_owner` payload that decodes with
non-empty id `i` and non-empty `newOwnerOrg` `o`, and every
`debtnote_newproperties` payload `t`, `TransferDebtNote` succeeds; afterwards
the collection `"_implicit_org_" ++ o` holds `t` under `i`, the world state holds
SHA-256 of the raw `debtnote_new_owner` bytes under `i ++ "_TRANSFER"`, and every
other private entry (in every collection) and every other public entry is as
before. -/
theorem TransferDebtNote_effect (J : JsonCodec) (ctx : Context) (st : Ledger) (np t : Bytes)
    (m : JMap)
    (hn : ctx.transient "debtnote_new_owner" = some np)
    (ht : ctx.transient "debtnote_newproperties" = some t)
    (hm : J.unmarshal np = some m)
    (hid : getSafeString (m.index "debtNoteID") ≠ "")
    (ho : getSafeString (m.index "newOwnerOrg") ≠ "") :
    (TransferDebtNote J ctx st).1 = .ok () ∧
    (∀ c k, (TransferDebtNote J ctx st).2.priv c k =
      if c = "_implicit_org_" ++ getSafeString (m.index "newOwnerOrg") ∧
          k = getSafeString (m.index "debtNoteID") then some t
      else st.priv c k) ∧
    (∀ k, (TransferDebtNote J ctx st).2.world k =
      if k = getSafeString (m.index "debtNoteID") ++ "_TRANSFER" then some (SHA256.sum256 np)
      else st.world k) := by
  have hkey : getSafeString (m.index "debtNoteID") ++ "_TRANSFER" ≠ "" :=
    append_ne_empty _ _ (by decide)
  have h : TransferDebtNote J ctx st = (.ok (),
      { world := fun k =>
          if k = getSafeString (m.index "debtNoteID") ++ "_TRANSFER" then
            some (SHA256.sum256 np)
          else st.world k
        priv := fun c k =>
          if c = buildCollectionName (getSafeString (m.index "newOwnerOrg")) ∧
              k = getSafeString (m.index "debtNoteID") then some t
          else st.priv c k }) := by
    simp [TransferDebtNote, hn, ht, hm, strlen_eq_zero, hid, ho, Ledger.PutPrivateData,
      Ledger.PutState, buildCollectionName_ne_empty, hkey]
  rw [h]
  exact ⟨rfl, fun _ _ => rfl, fun _ => rfl⟩

/-- Witness of C9: `DN1` is transferred to `OrgB` on the empty ledger. -/
theorem TransferDebtNote_effect_witness :
    (TransferDebtNote goJson transferCtx Ledger.empty).1 = .ok () ∧
    (∀ c k, (TransferDebtNote goJson transferCtx Ledger.empty).2.priv c k =
      if c = "_implicit_org_" ++ getSafeString (JMap.index
            [("debtNoteID", JValue.str "DN1"), ("newOwnerOrg", JValue.str "OrgB")]
            "newOwnerOrg") ∧
          k = getSafeString (JMap.index
            [("debtNoteID", JValue.str "DN1"), ("newOwnerOrg", JValue.str "OrgB")]
            "debtNoteID") then some payloadDN1
      else Ledger.empty.priv c k) ∧
    (∀ k, (TransferDebtNote goJson transferCtx Ledger.empty).2.world k =
      if k = getSafeString (JMap.index
            [("debtNoteID", JValue.str "DN1"), ("newOwnerOrg", JValue.str "OrgB")]
            "debtNoteID") ++ "_TRANSFER" then some (SHA256.sum256 payloadNewOwner)
      else Ledger.empty.world k) :=
  TransferDebtNote_effect goJson transferCtx Ledger.empty payloadNewOwner payloadDN1
    [("debtNoteID", JValue.str "DN1"), ("newOwnerOrg", JValue.str "OrgB")]
    rfl rfl rfl (by decide) (by decide)

/-! ## The published digest and the private store's hash -/

/-- C10 (as amended): for every successful `CreateDebtNote` by org `o` with
payload `p` and id `i`, `ReadWorldState(i)` returns the digest of the submitted
bytes `p` and `GetDebtNoteHash(i, o)` returns the digest of the stored record,
`json.Marshal` of the decoded payload; the two are equal when the stored record
is byte for byte the submitted payload. -/
theorem GetDebtNoteHash_after_create (J : JsonCodec) (ctx : Context) (st : Ledger) (p : Bytes)
    (m : JMap) (o : String)
    (hp : ctx.transient "debtnote_properties" = some p) (hm : J.unmarshal p = some m)
    (hc : ctx.clientMSPID = some o)
    (hok : (CreateDebtNote J ctx st).1 = .ok ()) :
    ReadWorldState (CreateDebtNote J ctx st).2 (getSafeString (m.index "debtNoteID")) =
      .ok (hexEncode (SHA256.sum256 p)) ∧
    GetDebtNoteHash (CreateDebtNote J ctx st).2 (getSafeString (m.index "debtNoteID")) o =
      .ok (hexEncode (SHA256.sum256 (J.marshal m))) ∧
    (J.marshal m = p →
      ReadWorldState (CreateDebtNote J ctx st).2 (getSafeString (m.index "debtNoteID")) =
        GetDebtNoteHash (CreateDebtNote J ctx st).2 (getSafeString (m.index "debtNoteID")) o) := by
  obtain ⟨o1, hc1, -, -, -, h⟩ := CreateDebtNote_ok_inv J ctx st p m hp hm hok
  have hoo : o1 = o := Option.some.inj (hc1.symm.trans hc)
  subst hoo
  have hpub : ReadWorldState (CreateDebtNote J ctx st).2 (getSafeString (m.index "debtNoteID")) =
      .ok (hexEncode (SHA256.sum256 p)) := by
    simp [h, ReadWorldState, Ledger.GetState, createdLedger]
  have hpriv : GetDebtNoteHash (CreateDebtNote J ctx st).2
      (getSafeString (m.index "debtNoteID")) o1 =
      .ok (hexEncode (SHA256.sum256 (J.marshal m))) := by
    simp [h, GetDebtNoteHash, Ledger.GetPrivateDataHash, createdLedger]
  refine ⟨hpub, hpriv, fun hcanon => ?_⟩
  rw [hpub, hpriv, hcanon]

/-- Witness of C10: `OrgA` creates `DN1` from the payload in encoded form; the
published digest and the private store's hash agree. -/
theorem GetDebtNoteHash_after_create_witness :
    goJson.marshal recordDN1 = payloadSorted ∧
    ReadWorldState
      (CreateDebtNote goJson (orgACtx "debtnote_properties" payloadSorted) Ledger.empty).2
      (getSafeString (recordDN1.index "debtNoteID")) =
    GetDebtNoteHash
      (CreateDebtNote goJson (orgACtx "debtnote_properties" payloadSorted) Ledger.empty).2
      (getSafeString (recordDN1.index "debtNoteID")) "OrgA" :=
  ⟨by decide,
    (GetDebtNoteHash_after_create goJson (orgACtx "debtnote_properties" payloadSorted)
      Ledger.empty payloadSorted recordDN1 "OrgA" rfl rfl rfl (by decide)).2.2 (by decide)⟩

/-- C10, counterexample: `OrgA` creates `DN1` from a payload whose keys are not
in key order; the creation succeeds, and the digest `ReadWorldState` returns for
`DN1` differs from the one `GetDebtNoteHash` returns for `DN1` and `OrgA`. -/
theorem GetDebtNoteHash_differs_from_published_digest :
    (CreateDebtNote goJson (orgACtx "debtnote_properties" payloadDN1) Ledger.empty).1 = .ok () ∧
    ReadWorldState
      (CreateDebtNote goJson (orgACtx "debtnote_properties" payloadDN1) Ledger.empty).2 "DN1" =
      .ok "4370f54d7740562ea8783d2b340b68977088d49897d30f1c02816ddfce99bc16" ∧
    GetDebtNoteHash
      (CreateDebtNote goJson (orgACtx "debtnote_properties" payloadDN1) Ledger.empty).2 "DN1"
      "OrgA" = .ok "68207d70ffcfe2ca041a566fb35da7e107524ce5cc1bacce7edb44bc2126801f" ∧
    ReadWorldState
      (CreateDebtNote goJson (orgACtx "debtnote_properties" payloadDN1) Ledger.empty).2 "DN1" ≠
    GetDebtNoteHash
      (CreateDebtNote goJson (orgACtx "debtnote_properties" payloadDN1) Ledger.empty).2 "DN1"
      "OrgA" := by
  refine ⟨by decide, by decide!, by decide!, by decide!⟩

/-! ## Every operation, case by case -/

/-- `TransferDebtNote` either fails and returns the ledger it was given, or
passes its two checks and returns `transferredLedger`. -/
theorem TransferDebtNote_cases (J : JsonCodec) (ctx : Context) (st : Ledger) :
    (∃ e, TransferDebtNote J ctx st = (.error e, st)) ∨
    (∃ np t m, ctx.transient "debtnote_new_owner" = some np ∧
      ctx.transient "debtnote_newproperties" = some t ∧ J.unmarshal np = some m ∧
      getSafeString (m.index "debtNoteID") ≠ "" ∧ getSafeString (m.index "newOwnerOrg") ≠ "" ∧
      TransferDebtNote J ctx st = (.ok (), transferredLedger st
        (getSafeString (m.index "newOwnerOrg")) (getSafeString (m.index "debtNoteID")) t np)) := by
  cases hn : ctx.transient "debtnote_new_owner" with
  | none => exact Or.inl ⟨_, by simp [TransferDebtNote, hn]; rfl⟩
  | some np =>
    cases ht : ctx.transient "debtnote_newproperties" with
    | none => exact Or.inl ⟨_, by simp [TransferDebtNote, hn, ht]; rfl⟩
    | some t =>
      cases hm : J.unmarshal np with
      | none => exact Or.inl ⟨_, by simp [TransferDebtNote, hn, ht, hm]; rfl⟩
      | some m =>
        by_cases hid : getSafeString (m.index "debtNoteID") = ""
        · exact Or.inl ⟨_, by simp [TransferDebtNote, hn, ht, hm, strlen_eq_zero, hid]; rfl⟩
        by_cases ho : getSafeString (m.index "newOwnerOrg") = ""
        · exact Or.inl ⟨_, by simp [TransferDebtNote, hn, ht, hm, strlen_eq_zero, hid, ho]; rfl⟩
        have hkey : getSafeString (m.index "debtNoteID") ++ "_TRANSFER" ≠ "" :=
          append_ne_empty _ _ (by decide)
        exact Or.inr ⟨np, t, m, rfl, rfl, hm, hid, ho, by
          simp [TransferDebtNote, hn, ht, hm, strlen_eq_zero, hid, ho, Ledger.PutPrivateData,
            Ledger.PutState, buildCollectionName_ne_empty, hkey, transferredLedger]⟩

/-- `DeleteDebtNote` either fails and returns the ledger it was given, or finds
the record and returns `deletedLedger`. -/
theorem DeleteDebtNote_cases (J : JsonCodec) (ctx : Context) (st : Ledger) :
    (∃ e, DeleteDebtNote J ctx st = (.error e, st)) ∨
    (∃ o p m b, ctx.clientMSPID = some o ∧ ctx.transient "debtnote_properties" = some p ∧
      J.unmarshal p = some m ∧ getSafeString (m.index "debtNoteID") ≠ "" ∧
      st.priv (buildCollectionName o) (getSafeString (m.index "debtNoteID")) = some b ∧
      DeleteDebtNote J ctx st =
        (.ok (), deletedLedger st o (getSafeString (m.index "debtNoteID")))) := by
  cases hc : ctx.clientMSPID with
  | none => exact Or.inl ⟨_, by simp [DeleteDebtNote, getClientOrgID, hc]; rfl⟩
  | some o =>
    cases hp : ctx.transient "debtnote_properties" with
    | none => exact Or.inl ⟨_, by simp [DeleteDebtNote, getClientOrgID, hc, hp]; rfl⟩
    | some p =>
      cases hm : J.unmarshal p with
      | none => exact Or.inl ⟨_, by simp [DeleteDebtNote, getClientOrgID, hc, hp, hm]; rfl⟩
      | some m =>
        by_cases hid : getSafeString (m.index "debtNoteID") = ""
        · exact Or.inl ⟨_, by
            simp [DeleteDebtNote, getClientOrgID, hc, hp, hm, strlen_eq_zero, hid]; rfl⟩
        cases hb : st.priv (buildCollectionName o) (getSafeString (m.index "debtNoteID")) with
        | none =>
          exact Or.inl ⟨_, by
            simp [DeleteDebtNote, getClientOrgID, hc, hp, hm, strlen_eq_zero, hid,
              Ledger.GetPrivateData, hb]; rfl⟩
        | some b =>
          exact Or.inr ⟨o, p, m, b, rfl, rfl, hm, hid, hb, by
            simp [DeleteDebtNote, getClientOrgID, hc, hp, hm, strlen_eq_zero, hid,
              Ledger.GetPrivateData, hb, Ledger.DelPrivateData, buildCollectionName_ne_empty,
              deletedLedger]⟩

/-! ## The digest has 32 bytes -/

theorem SHA256.round_length (s : List Nat) (kw : Nat × Nat) :
    (SHA256.round s kw).length = s.length := by
  unfold SHA256.round
  split <;> simp

theorem SHA256.foldl_round_length (l : List (Nat × Nat)) (s : List Nat) :
    (l.foldl SHA256.round s).length = s.length := by
  induction l generalizing s with
  | nil => rfl
  | cons kw rest ih => simp [List.foldl, ih, SHA256.round_length]

theorem SHA256.compress_length (h block : List Nat) :
    (SHA256.compress h block).length = h.length := by
  simp [SHA256.compress, SHA256.foldl_round_length]

theorem SHA256.foldl_compress_length (bs : List (List Nat)) (h : List Nat) :
    (bs.foldl SHA256.compress h).length = h.length := by
  induction bs generalizing h with
  | nil => rfl
  | cons b rest ih => simp [List.foldl, ih, SHA256.compress_length]

theorem SHA256.flatMap_wordBytes_length (ws : List Nat) :
    (ws.flatMap SHA256.wordBytes).length = 4 * ws.length := by
  induction ws with
  | nil => rfl
  | cons w rest ih =>
    simp only [List.flatMap_cons, List.length_append, ih, List.length_cons]
    simp [SHA256.wordBytes]
    omega

/-- A SHA-256 digest has 32 bytes, whatever the message. -/
theorem SHA256.sum256_length (msg : Bytes) : (SHA256.sum256 msg).length = 32 := by
  simp only [SHA256.sum256, SHA256.flatMap_wordBytes_length, SHA256.foldl_compress_length]
  rfl

/-! ## The world state under the operations -/

/-- An entry of the world state after an invocation is the entry before it, or
the digest a creation or a transfer has just written. -/
theorem invoke_world_origin (J : JsonCodec) (op : Op) (ctx : Context) (st : Ledger)
    (k : String) (v : Bytes) (h : (invoke J op ctx st).2.world k = some v) :
    st.world k = some v ∨
    (op = Op.createDebtNote ∧ ∃ p m, ctx.transient "debtnote_properties" = some p ∧
      J.unmarshal p = some m ∧ k = getSafeString (m.index "debtNoteID") ∧
      v = SHA256.sum256 p) ∨
    (op = Op.transferDebtNote ∧ ∃ np m, ctx.transient "debtnote_new_owner" = some np ∧
      J.unmarshal np = some m ∧ k = getSafeString (m.index "debtNoteID") ++ "_TRANSFER" ∧
      v = SHA256.sum256 np) := by
  cases op with
  | createDebtNote =>
    rcases CreateDebtNote_cases J ctx st with ⟨e, he⟩ | ⟨p, m, o, hp, hm, -, -, -, -, -, -, -, hc⟩
    · simp only [invoke, he] at h; exact Or.inl h
    · simp only [invoke, hc, createdLedger] at h
      by_cases hk : k = getSafeString (m.index "debtNoteID")
      · rw [if_pos hk] at h
        exact Or.inr (Or.inl ⟨rfl, p, m, hp, hm, hk, (Option.some.inj h).symm⟩)
      · rw [if_neg hk] at h; exact Or.inl h
  | deleteDebtNote =>
    rcases DeleteDebtNote_cases J ctx st with ⟨e, he⟩ | ⟨o, p, m, b, -, -, -, -, -, hc⟩
    · simp only [invoke, he] at h; exact Or.inl h
    · simp only [invoke, hc, deletedLedger] at h; exact Or.inl h
  | transferDebtNote =>
    rcases TransferDebtNote_cases J ctx st with ⟨e, he⟩ | ⟨np, t, m, hn, -, hm, -, -, hc⟩
    · simp only [invoke, he] at h; exact Or.inl h
    · simp only [invoke, hc, transferredLedger] at h
      by_cases hk : k = getSafeString (m.index "debtNoteID") ++ "_TRANSFER"
      · rw [if_pos hk] at h
        exact Or.inr (Or.inr ⟨rfl, np, m, hn, hm, hk, (Option.some.inj h).symm⟩)
      · rw [if_neg hk] at h; exact Or.inl h
  | redeemDebtNote =>
    rcases RedeemDebtNote_cases J ctx st with
      ⟨e, he⟩ | ⟨r, rm, o, b, record, -, -, -, -, -, -, -, -, -, -, hc⟩
    · simp only [invoke, he] at h; exact Or.inl h
    · simp only [invoke, hc, redeemedLedger] at h; exact Or.inl h
  | getDebtNote i => exact Or.inl h
  | getDebtNoteHash i o => exact Or.inl h
  | readWorldState key => exact Or.inl h

/-- An entry of the world state is kept by every invocation, except that a
transfer overwrites the entry under the id with the suffix `_TRANSFER`. -/
theorem invoke_world_kept (J : JsonCodec) (op : Op) (ctx : Context) (st : Ledger)
    (k : String) (v : Bytes) (h : st.world k = some v) :
    (invoke J op ctx st).2.world k = some v ∨
    (op = Op.transferDebtNote ∧ ∃ np m, ctx.transient "debtnote_new_owner" = some np ∧
      J.unmarshal np = some m ∧ k = getSafeString (m.index "debtNoteID") ++ "_TRANSFER" ∧
      (invoke J op ctx st).2.world k = some (SHA256.sum256 np)) := by
  cases op with
  | createDebtNote =>
    rcases CreateDebtNote_cases J ctx st with ⟨e, he⟩ | ⟨p, m, o, -, -, -, -, -, -, hw, -, -, hc⟩
    · simp only [invoke, he]; exact Or.inl h
    · simp only [invoke, hc, createdLedger]
      have hk : k ≠ getSafeString (m.index "debtNoteID") := by
        rintro rfl; rw [hw] at h; cases h
      rw [if_neg hk]; exact Or.inl h
  | deleteDebtNote =>
    rcases DeleteDebtNote_cases J ctx st with ⟨e, he⟩ | ⟨o, p, m, b, -, -, -, -, -, hc⟩
    · simp only [invoke, he]; exact Or.inl h
    · simp only [invoke, hc, deletedLedger]; exact Or.inl h
  | transferDebtNote =>
    rcases TransferDebtNote_cases J ctx st with ⟨e, he⟩ | ⟨np, t, m, hn, -, hm, -, -, hc⟩
    · simp only [invoke, he]; exact Or.inl h
    · have hl : (invoke J Op.transferDebtNote ctx st).2 = transferredLedger st
          (getSafeString (m.index "newOwnerOrg")) (getSafeString (m.index "debtNoteID")) t np := by
        simp only [invoke, hc]
      rw [hl]
      by_cases hk : k = getSafeString (m.index "debtNoteID") ++ "_TRANSFER"
      · exact Or.inr ⟨rfl, np, m, hn, hm, hk, by simp only [transferredLedger, if_pos hk]⟩
      · exact Or.inl (by simp only [transferredLedger, if_neg hk]; exact h)
  | redeemDebtNote =>
    rcases RedeemDebtNote_cases J ctx st with
      ⟨e, he⟩ | ⟨r, rm, o, b, record, -, -, -, -, -, -, -, -, -, -, hc⟩
    · simp only [invoke, he]; exact Or.inl h
    · simp only [invoke, hc, redeemedLedger]; exact Or.inl h
  | getDebtNote i => exact Or.inl h
  | getDebtNoteHash i o => exact Or.inl h
  | readWorldState key => exact Or.inl h

/-- No invocation removes an entry of the world state. -/
theorem invoke_world_ne_none (J : JsonCodec) (op : Op) (ctx : Context) (st : Ledger)
    (k : String) (h : st.world k ≠ none) : (invoke J op ctx st).2.world k ≠ none := by
  obtain ⟨v, hv⟩ := Option.ne_none_iff_exists'.mp h
  rcases invoke_world_kept J op ctx st k v hv with h1 | ⟨-, np, m, -, -, -, h1⟩ <;>
    rw [h1] <;> exact Option.some_ne_none _

/-- No sequence of invocations removes an entry of the world state. -/
theorem run_world_ne_none (J : JsonCodec) (tr : List (Op × Context)) (st : Ledger)
    (k : String) (h : st.world k ≠ none) : (run J tr st).world k ≠ none := by
  induction tr generalizing st with
  | nil => exact h
  | cons step rest ih =>
    obtain ⟨op, ctx⟩ := step
    exact ih _ (invoke_world_ne_none J op ctx st k h)

/-- An entry of the world state after a sequence of invocations was there
before, or is the digest of a payload submitted in the sequence. -/
theorem run_world_origin (J : JsonCodec) (tr : List (Op × Context)) (st : Ledger)
    (k : String) (v : Bytes) (h : (run J tr st).world k = some v) :
    st.world k = some v ∨ ∃ p, submitted tr p ∧ v = SHA256.sum256 p := by
  induction tr generalizing st with
  | nil => exact Or.inl h
  | cons step rest ih =>
    obtain ⟨op, ctx⟩ := step
    rcases ih _ h with h1 | ⟨p, ⟨s, hs, hsub⟩, hv⟩
    · rcases invoke_world_origin J op ctx st k v h1 with
        h2 | ⟨hop, p, m, hp, -, -, hv⟩ | ⟨hop, np, m, hn, -, -, hv⟩
      · exact Or.inl h2
      · exact Or.inr ⟨p, ⟨(op, ctx), List.mem_cons_self _ _, Or.inl ⟨hop, hp⟩⟩, hv⟩
      · exact Or.inr ⟨np, ⟨(op, ctx), List.mem_cons_self _ _, Or.inr ⟨hop, hn⟩⟩, hv⟩
    · exact Or.inr ⟨p, ⟨s, List.mem_cons_of_mem _ hs, hsub⟩, hv⟩

/-! ## Public anchors -/

/-- C12 (as amended): for every ledger, every operation and every key `k` that
has an entry in the world state before the operation, the entry under `k` after
the operation is the same value, unless the operation is a `TransferDebtNote`
whose id `i` gives `k = i ++ "_TRANSFER"`: that entry is overwritten with the
digest of the transfer's new-owner payload. No operation removes an entry. -/
theorem public_entry_kept (J : JsonCodec) (op : Op) (ctx : Context) (st : Ledger)
    (k : String) (v : Bytes) (h : st.world k = some v) :
    ((invoke J op ctx st).2.world k = some v ∨
      (op = Op.transferDebtNote ∧ ∃ np m, ctx.transient "debtnote_new_owner" = some np ∧
        J.unmarshal np = some m ∧ k = getSafeString (m.index "debtNoteID") ++ "_TRANSFER" ∧
        (invoke J op ctx st).2.world k = some (SHA256.sum256 np))) ∧
    (invoke J op ctx st).2.world k ≠ none :=
  ⟨invoke_world_kept J op ctx st k v h,
    invoke_world_ne_none J op ctx st k (by rw [h]; exact Option.some_ne_none _)⟩

/-- Witness of C12: `OrgA` redeems `DN1` on a ledger with a public entry under
`DN1`; the entry stays. -/
theorem public_entry_kept_witness :
    ((invoke goJson Op.redeemDebtNote (orgACtx "debtnote_redeem" payloadRedeem)
        anchoredLedger).2.world "DN1" = some [1, 2, 3] ∨
      (Op.redeemDebtNote = Op.transferDebtNote ∧ ∃ np m,
        (orgACtx "debtnote_redeem" payloadRedeem).transient "debtnote_new_owner" = some np ∧
        goJson.unmarshal np = some m ∧
        "DN1" = getSafeString (m.index "debtNoteID") ++ "_TRANSFER" ∧
        (invoke goJson Op.redeemDebtNote (orgACtx "debtnote_redeem" payloadRedeem)
          anchoredLedger).2.world "DN1" = some (SHA256.sum256 np))) ∧
    (invoke goJson Op.redeemDebtNote (orgACtx "debtnote_redeem" payloadRedeem)
      anchoredLedger).2.world "DN1" ≠ none :=
  public_entry_kept goJson Op.redeemDebtNote (orgACtx "debtnote_redeem" payloadRedeem)
    anchoredLedger "DN1" [1, 2, 3] rfl

/-- C12, counterexample: `DN1` is transferred to `OrgB` and then to `OrgC`; the
second `TransferDebtNote` finds a public entry under `DN1_TRANSFER` and replaces
it with another value. -/
theorem TransferDebtNote_overwrites_public_entry :
    (invoke goJson Op.transferDebtNote transferCtx Ledger.empty).2.world "DN1_TRANSFER" =
      some (SHA256.sum256 payloadNewOwner) ∧
    (invoke goJson Op.transferDebtNote transferCtxC
      (invoke goJson Op.transferDebtNote transferCtx Ledger.empty).2).2.world "DN1_TRANSFER" =
      some (SHA256.sum256 payloadNewOwnerC) ∧
    SHA256.sum256 payloadNewOwner ≠ SHA256.sum256 payloadNewOwnerC := by
  refine ⟨by decide, by decide, by decide⟩

/-! ## Failures -/

/-- On the stub of `Ledger`, whose writes fail on an empty key or collection
name only, every failure of an operation comes before its first write: the
ledger afterwards (world state and every private collection) is the ledger
before the call. The failures after a write are studied on the fallible stub
below. -/
theorem failure_leaves_ledger (J : JsonCodec) (op : Op) (ctx : Context) (st : Ledger)
    (h : ∃ e, (invoke J op ctx st).1 = .error e) : (invoke J op ctx st).2 = st := by
  obtain ⟨e, he⟩ := h
  cases op with
  | createDebtNote =>
    rcases CreateDebtNote_cases J ctx st with ⟨e1, h1⟩ | ⟨p, m, o, -, -, -, -, -, -, -, -, -, hc⟩
    · simp only [invoke, h1]
    · simp [invoke, hc, Except.map] at he
  | deleteDebtNote =>
    rcases DeleteDebtNote_cases J ctx st with ⟨e1, h1⟩ | ⟨o, p, m, b, -, -, -, -, -, hc⟩
    · simp only [invoke, h1]
    · simp [invoke, hc, Except.map] at he
  | transferDebtNote =>
    rcases TransferDebtNote_cases J ctx st with ⟨e1, h1⟩ | ⟨np, t, m, -, -, -, -, -, hc⟩
    · simp only [invoke, h1]
    · simp [invoke, hc, Except.map] at he
  | redeemDebtNote =>
    rcases RedeemDebtNote_cases J ctx st with
      ⟨e1, h1⟩ | ⟨r, rm, o, b, record, -, -, -, -, -, -, -, -, -, -, hc⟩
    · simp only [invoke, h1]
    · simp [invoke, hc, Except.map] at he
  | getDebtNote i => rfl
  | getDebtNoteHash i o => rfl
  | readWorldState key => rfl

/-- Example: `OrgA` submits a note naming `OrgB` as debtor to a ledger with a
public entry; the creation fails and the ledger is as before. -/
theorem failure_leaves_ledger_witness :
    (∃ e, (invoke goJson Op.createDebtNote (orgACtx "debtnote_properties" payloadOrgB)
      anchoredLedger).1 = .error e) ∧
    (invoke goJson Op.createDebtNote (orgACtx "debtnote_properties" payloadOrgB)
      anchoredLedger).2 = anchoredLedger :=
  ⟨⟨Err.existsInWorldState "DN1", by decide⟩,
    failure_leaves_ledger goJson Op.createDebtNote (orgACtx "debtnote_properties" payloadOrgB)
      anchoredLedger ⟨Err.existsInWorldState "DN1", by decide⟩⟩

/-! ## Failures on a stub whose calls may fail -/

/-- A successful `PutPrivateData` on the fallible stub is that of `Ledger` and
leaves the world state. -/
theorem Faults.PutPrivateData_world (F : Faults) (st st1 : Ledger) (c k : String) (v : Bytes)
    (h : F.PutPrivateData st c k v = some st1) :
    st.PutPrivateData c k v = some st1 ∧ st1.world = st.world := by
  unfold Faults.PutPrivateData at h
  split at h
  · cases h
  · refine ⟨h, ?_⟩
    unfold Ledger.PutPrivateData at h
    split at h
    · cases h
    · split at h
      · cases h
      · cases h; rfl

/-- A successful `json.Marshal` returns the encoding. -/
theorem Faults.Marshal_eq (F : Faults) (J : JsonCodec) (m : JMap) (b : Bytes)
    (h : F.Marshal J m = some b) : b = J.marshal m := by
  unfold Faults.Marshal at h
  split at h
  · cases h
  · exact (Option.some.inj h).symm

/-- The org `getClientOrgID` returns is the client's MSP id. -/
theorem getClientOrgID_ok_client (ctx : Context) (v : Bool) (o : String)
    (h : getClientOrgID ctx v = .ok o) : ctx.clientMSPID = some o := by
  unfold getClientOrgID at h
  split at h
  · cases h
  · split at h
    · split at h
      · cases h
      · cases h; assumption
    · cases h; assumption

/-- A failing `CreateDebtNote` returns the ledger it was given, unless `PutState`
failed: then it returns the ledger with the private write. -/
theorem Faulty.CreateDebtNote_failure (F : Faults) (J : JsonCodec) (ctx : Context) (st : Ledger)
    (e : Failure) (h : (Faulty.CreateDebtNote F J ctx st).1 = .error e) :
    (Faulty.CreateDebtNote F J ctx st).2 = st ∨
    (e = .contract .putState ∧ ∃ p m o, ctx.transient "debtnote_properties" = some p ∧
      J.unmarshal p = some m ∧ ctx.clientMSPID = some o ∧
      st.PutPrivateData (buildCollectionName o) (getSafeString (m.index "debtNoteID"))
        (J.marshal m) = some (Faulty.CreateDebtNote F J ctx st).2) := by
  revert h
  unfold Faulty.CreateDebtNote
  repeat' split
  all_goals first
    | exact fun _ => Or.inl rfl
    | skip
  · rename_i p hp _ m hm _ _ _ o ho _ _ _ _ _ _ bytes hmar _ st1 hput _ _
    intro h
    cases h
    have hb := Faults.Marshal_eq F J m bytes hmar
    subst hb
    exact Or.inr ⟨rfl, p, m, o, hp, hm, getClientOrgID_ok_client ctx true o ho,
      (Faults.PutPrivateData_world F st st1 _ _ _ hput).1⟩
  · intro h; cases h

/-- A failing `TransferDebtNote` returns the ledger it was given, unless
`PutState` failed: then it returns the ledger with the private write. -/
theorem Faulty.TransferDebtNote_failure (F : Faults) (J : JsonCodec) (ctx : Context)
    (st : Ledger) (e : Failure) (h : (Faulty.TransferDebtNote F J ctx st).1 = .error e) :
    (Faulty.TransferDebtNote F J ctx st).2 = st ∨
    (e = .contract .putState ∧ ∃ np t m, ctx.transient "debtnote_new_owner" = some np ∧
      ctx.transient "debtnote_newproperties" = some t ∧ J.unmarshal np = some m ∧
      st.PutPrivateData (buildCollectionName (getSafeString (m.index "newOwnerOrg")))
        (getSafeString (m.index "debtNoteID")) t = some (Faulty.TransferDebtNote F J ctx st).2) := by
  revert h
  unfold Faulty.TransferDebtNote
  repeat' split
  all_goals first
    | exact fun _ => Or.inl rfl
    | skip
  · rename_i np hn _ t ht _ m hm _ _ _ st1 hput _ _
    intro h
    cases h
    exact Or.inr ⟨rfl, np, t, m, hn, ht, hm, (Faults.PutPrivateData_world F st st1 _ _ _ hput).1⟩
  · intro h; cases h

/-- A failing `DeleteDebtNote` returns the ledger it was given. -/
theorem Faulty.DeleteDebtNote_failure (F : Faults) (J : JsonCodec) (ctx : Context)
    (st : Ledger) (e : Failure) (h : (Faulty.DeleteDebtNote F J ctx st).1 = .error e) :
    (Faulty.DeleteDebtNote F J ctx st).2 = st := by
  revert h
  unfold Faulty.DeleteDebtNote
  repeat' split
  all_goals first
    | exact fun _ => rfl
    | skip
  · intro h; cases h

/-- A failing `RedeemDebtNote` returns the ledger it was given: its one write is
its last call. -/
theorem Faulty.RedeemDebtNote_failure (F : Faults) (J : JsonCodec) (ctx : Context)
    (st : Ledger) (e : Failure) (h : (Faulty.RedeemDebtNote F J ctx st).1 = .error e) :
    (Faulty.RedeemDebtNote F J ctx st).2 = st := by
  revert h
  unfold Faulty.RedeemDebtNote
  repeat' split
  all_goals first
    | exact fun _ => rfl
    | skip
  · intro h; cases h

/-- With no fault, `Faulty.CreateDebtNote` is `CreateDebtNote`. -/
theorem noFaults_CreateDebtNote (J : JsonCodec) (ctx : Context) (st : Ledger) :
    Faulty.CreateDebtNote noFaults J ctx st =
      ((CreateDebtNote J ctx st).1.mapError Failure.contract, (CreateDebtNote J ctx st).2) := by
  unfold Faulty.CreateDebtNote CreateDebtNote
  simp only [noFaults, Faults.GetState, Faults.GetPrivateData, Faults.PutState,
    Faults.PutPrivateData, Faults.Marshal, Bool.false_eq_true, if_false]
  repeat' split
  all_goals first
    | rfl
    | simp_all [Except.mapError]

/-- With no fault, `Faulty.DeleteDebtNote` is `DeleteDebtNote`. -/
theorem noFaults_DeleteDebtNote (J : JsonCodec) (ctx : Context) (st : Ledger) :
    Faulty.DeleteDebtNote noFaults J ctx st =
      ((DeleteDebtNote J ctx st).1.mapError Failure.contract, (DeleteDebtNote J ctx st).2) := by
  unfold Faulty.DeleteDebtNote DeleteDebtNote
  simp only [noFaults, Faults.GetPrivateData, Faults.DelPrivateData, Bool.false_eq_true, if_false]
  repeat' split
  all_goals first
    | rfl
    | simp_all [Except.mapError]

/-- With no fault, `Faulty.TransferDebtNote` is `TransferDebtNote`. -/
theorem noFaults_TransferDebtNote (J : JsonCodec) (ctx : Context) (st : Ledger) :
    Faulty.TransferDebtNote noFaults J ctx st =
      ((TransferDebtNote J ctx st).1.mapError Failure.contract,
        (TransferDebtNote J ctx st).2) := by
  unfold Faulty.TransferDebtNote TransferDebtNote
  simp only [noFaults, Faults.PutState, Faults.PutPrivateData, Bool.false_eq_true, if_false]
  repeat' split
  all_goals rfl

/-- With no fault, `Faulty.RedeemDebtNote` is `RedeemDebtNote`. -/
theorem noFaults_RedeemDebtNote (J : JsonCodec) (ctx : Context) (st : Ledger) :
    Faulty.RedeemDebtNote noFaults J ctx st =
      ((RedeemDebtNote J ctx st).1.mapError Failure.contract, (RedeemDebtNote J ctx st).2) := by
  unfold Faulty.RedeemDebtNote RedeemDebtNote
  simp only [noFaults, Faults.GetPrivateData, Faults.PutPrivateData, Faults.Marshal,
    Bool.false_eq_true, if_false]
  repeat' split
  all_goals first
    | rfl
    | simp_all [Except.mapError]

/-- With no fault, an invocation on the fallible stub is the invocation of
`invoke`: the same result and the same ledger. -/
theorem noFaults_invoke (J : JsonCodec) (op : Op) (ctx : Context) (st : Ledger) :
    Faulty.invoke noFaults J op ctx st =
      ((invoke J op ctx st).1.mapError Failure.contract, (invoke J op ctx st).2) := by
  cases op with
  | createDebtNote =>
    simp only [Faulty.invoke, invoke, noFaults_CreateDebtNote]
    cases (CreateDebtNote J ctx st).1 <;> rfl
  | deleteDebtNote =>
    simp only [Faulty.invoke, invoke, noFaults_DeleteDebtNote]
    cases (DeleteDebtNote J ctx st).1 <;> rfl
  | transferDebtNote =>
    simp only [Faulty.invoke, invoke, noFaults_TransferDebtNote]
    cases (TransferDebtNote J ctx st).1 <;> rfl
  | redeemDebtNote =>
    simp only [Faulty.invoke, invoke, noFaults_RedeemDebtNote]
    cases (RedeemDebtNote J ctx st).1 <;> rfl
  | getDebtNote i =>
    simp only [Faulty.invoke, invoke, Faulty.GetDebtNote, GetDebtNote, noFaults,
      Faults.GetPrivateData, Bool.false_eq_true, if_false]
    repeat' split
    all_goals first
      | rfl
      | simp_all [Except.mapError, Except.map]
  | getDebtNoteHash i o =>
    simp only [Faulty.invoke, invoke, Faulty.GetDebtNoteHash, GetDebtNoteHash, noFaults,
      Faults.GetPrivateDataHash, Bool.false_eq_true, if_false]
    repeat' split
    all_goals first
      | rfl
      | simp_all [Except.mapError, Except.map]
  | readWorldState key =>
    simp only [Faulty.invoke, invoke, Faulty.ReadWorldState, ReadWorldState, noFaults,
      Faults.GetState, Bool.false_eq_true, if_false]
    repeat' split
    all_goals first
      | rfl
      | simp_all [Except.mapError, Except.map]

/-- A mapped result that is a failure was that failure. -/
theorem except_map_eq_error {ε α β : Type} (f : α → β) (x : Except ε α) (e : ε)
    (h : x.map f = .error e) : x = .error e := by
  cases x with
  | error e1 => simpa [Except.map] using h
  | ok a => simp [Except.map] at h

/-- C14 (as amended): for every operation, ledger, caller and input, and whichever
calls of the stub fail: if the operation returns a failure, the world state is
what it was before the call, and so is every private collection, unless the
failure is that of `PutState` in `CreateDebtNote` or `TransferDebtNote`. That
failure comes after `PutPrivateData` has succeeded and the operation does not
undo it: the ledger the operation leaves is the ledger before the call with that
one private write (the encoded record in the caller's collection for
`CreateDebtNote`, the transferable payload in the new owner's collection for
`TransferDebtNote`). -/
theorem failure_effect (F : Faults) (J : JsonCodec) (op : Op) (ctx : Context) (st : Ledger)
    (e : Failure) (h : (Faulty.invoke F J op ctx st).1 = .error e) :
    (Faulty.invoke F J op ctx st).2.world = st.world ∧
    ((Faulty.invoke F J op ctx st).2 = st ∨
      (e = .contract .putState ∧
        ((op = Op.createDebtNote ∧ ∃ p m o, ctx.transient "debtnote_properties" = some p ∧
            J.unmarshal p = some m ∧ ctx.clientMSPID = some o ∧
            st.PutPrivateData (buildCollectionName o) (getSafeString (m.index "debtNoteID"))
              (J.marshal m) = some (Faulty.invoke F J op ctx st).2) ∨
          (op = Op.transferDebtNote ∧ ∃ np t m,
            ctx.transient "debtnote_new_owner" = some np ∧
            ctx.transient "debtnote_newproperties" = some t ∧ J.unmarshal np = some m ∧
            st.PutPrivateData (buildCollectionName (getSafeString (m.index "newOwnerOrg")))
              (getSafeString (m.index "debtNoteID")) t =
                some (Faulty.invoke F J op ctx st).2)))) := by
  have hput : ∀ (c k : String) (v : Bytes) (st1 : Ledger),
      st.PutPrivateData c k v = some st1 → st1.world = st.world := by
    intro c k v st1 h1
    exact (Faults.PutPrivateData_world noFaults st st1 c k v
      (by simpa [Faults.PutPrivateData, noFaults] using h1)).2
  cases op with
  | createDebtNote =>
    have h1 := except_map_eq_error _ _ _ h
    rcases Faulty.CreateDebtNote_failure F J ctx st e h1 with h2 | ⟨he, p, m, o, hp, hm, ho, h2⟩
    · exact ⟨congrArg Ledger.world h2, Or.inl h2⟩
    · exact ⟨hput _ _ _ _ h2, Or.inr ⟨he, Or.inl ⟨rfl, p, m, o, hp, hm, ho, h2⟩⟩⟩
  | deleteDebtNote =>
    have h2 := Faulty.DeleteDebtNote_failure F J ctx st e (except_map_eq_error _ _ _ h)
    exact ⟨congrArg Ledger.world h2, Or.inl h2⟩
  | transferDebtNote =>
    have h1 := except_map_eq_error _ _ _ h
    rcases Faulty.TransferDebtNote_failure F J ctx st e h1 with h2 | ⟨he, np, t, m, hn, ht, hm, h2⟩
    · exact ⟨congrArg Ledger.world h2, Or.inl h2⟩
    · exact ⟨hput _ _ _ _ h2, Or.inr ⟨he, Or.inr ⟨rfl, np, t, m, hn, ht, hm, h2⟩⟩⟩
  | redeemDebtNote =>
    have h2 := Faulty.RedeemDebtNote_failure F J ctx st e (except_map_eq_error _ _ _ h)
    exact ⟨congrArg Ledger.world h2, Or.inl h2⟩
  | getDebtNote i => exact ⟨rfl, Or.inl rfl⟩
  | getDebtNoteHash i o => exact ⟨rfl, Or.inl rfl⟩
  | readWorldState key => exact ⟨rfl, Or.inl rfl⟩

/-- C14, counterexample: `OrgA` creates `DN1` on the empty ledger and `PutState`
fails. `CreateDebtNote` returns the failure of line 143 and the collection of
`OrgA`, empty before the call, holds the record under `DN1`. -/
theorem CreateDebtNote_failure_keeps_private_write :
    (Faulty.invoke refusePutState goJson Op.createDebtNote
      (orgACtx "debtnote_properties" payloadDN1) Ledger.empty).1 =
      .error (.contract .putState) ∧
    Ledger.empty.priv "_implicit_org_OrgA" "DN1" = none ∧
    (Faulty.invoke refusePutState goJson Op.createDebtNote
      (orgACtx "debtnote_properties" payloadDN1) Ledger.empty).2.priv
      "_implicit_org_OrgA" "DN1" = some payloadSorted := by
  decide

/-- Witness of C14: `DN1` is transferred to `OrgB` on the empty ledger and
`PutState` fails; the world state is empty as before and the ledger is the
empty one with the transferable payload in the collection of `OrgB`. -/
theorem failure_effect_witness :
    (Faulty.invoke refusePutState goJson Op.transferDebtNote transferCtx Ledger.empty).1 =
      .error (.contract .putState) ∧
    (Faulty.invoke refusePutState goJson Op.transferDebtNote transferCtx Ledger.empty).2.priv
      "_implicit_org_OrgB" "DN1" = some payloadDN1 ∧
    (Faulty.invoke refusePutState goJson Op.transferDebtNote transferCtx
      Ledger.empty).2.world = Ledger.empty.world :=
  ⟨by decide, by decide,
    (failure_effect refusePutState goJson Op.transferDebtNote transferCtx Ledger.empty
      (.contract .putState) (by decide)).1⟩

/-! ## Ids are used once -/

/-- C15: `CreateDebtNote` succeeds at most once for any given id: after a
successful `CreateDebtNote` with id `i` (on any ledger, so also on any ledger
reached from the empty one), and after any further sequence of operations by
any organizations, among them the deletion of the note's private record, every
`CreateDebtNote` with id `i` fails, because no operation removes the public
entry under `i`. -/
theorem CreateDebtNote_at_most_once (J : JsonCodec) (ctx1 ctx2 : Context) (st : Ledger)
    (tr : List (Op × Context)) (p1 p2 : Bytes) (m1 m2 : JMap)
    (hp1 : ctx1.transient "debtnote_properties" = some p1) (hm1 : J.unmarshal p1 = some m1)
    (hok : (CreateDebtNote J ctx1 st).1 = .ok ())
    (hp2 : ctx2.transient "debtnote_properties" = some p2) (hm2 : J.unmarshal p2 = some m2)
    (hid : getSafeString (m2.index "debtNoteID") = getSafeString (m1.index "debtNoteID")) :
    (run J tr (CreateDebtNote J ctx1 st).2).world (getSafeString (m1.index "debtNoteID")) ≠ none ∧
    ∃ e, (CreateDebtNote J ctx2 (run J tr (CreateDebtNote J ctx1 st).2)).1 = .error e := by
  obtain ⟨o, -, -, -, -, h⟩ := CreateDebtNote_ok_inv J ctx1 st p1 m1 hp1 hm1 hok
  have hw : (CreateDebtNote J ctx1 st).2.world (getSafeString (m1.index "debtNoteID")) ≠ none := by
    simp [h, createdLedger]
  have hrun := run_world_ne_none J tr _ _ hw
  refine ⟨hrun, ?_⟩
  rcases CreateDebtNote_cases J ctx2 (run J tr (CreateDebtNote J ctx1 st).2) with
    ⟨e, he⟩ | ⟨p, m, o2, hp, hm, -, -, -, -, hw2, -, -, -⟩
  · exact ⟨e, by rw [he]⟩
  · have hpp : p = p2 := Option.some.inj (hp.symm.trans hp2)
    subst hpp
    have hmm : m = m2 := Option.some.inj (hm.symm.trans hm2)
    subst hmm
    rw [hid] at hw2
    exact absurd hw2 hrun

/-- Witness of C15: `OrgA` creates `DN1` and deletes its private record; `OrgB`
then cannot create `DN1`. -/
theorem CreateDebtNote_at_most_once_witness :
    (run goJson [(Op.deleteDebtNote, orgACtx "debtnote_properties" payloadRedeem)]
      (CreateDebtNote goJson (orgACtx "debtnote_properties" payloadDN1) Ledger.empty).2).world
      (getSafeString (recordDN1.index "debtNoteID")) ≠ none ∧
    ∃ e, (CreateDebtNote goJson (orgBCtx "debtnote_properties" payloadOrgB)
      (run goJson [(Op.deleteDebtNote, orgACtx "debtnote_properties" payloadRedeem)]
        (CreateDebtNote goJson (orgACtx "debtnote_properties" payloadDN1) Ledger.empty).2)).1 =
      .error e :=
  CreateDebtNote_at_most_once goJson (orgACtx "debtnote_properties" payloadDN1)
    (orgBCtx "debtnote_properties" payloadOrgB) Ledger.empty
    [(Op.deleteDebtNote, orgACtx "debtnote_properties" payloadRedeem)] payloadDN1 payloadOrgB
    recordDN1
    [("debt", JValue.str "100"), ("debtNoteID", JValue.str "DN1"),
      ("debtyOrg", JValue.str "OrgB"), ("redeemStatus", JValue.str "False")]
    rfl rfl (by decide) rfl rfl rfl

/-! ## Frames -/

/-- C17: `DeleteDebtNote` and `RedeemDebtNote` make no change to the world state
and touch no other organization's data: for every ledger, caller and input,
after either operation the world state is as before, and every entry of a
private collection other than the caller's own (`"_implicit_org_"` followed by
the caller's org) is as before. -/
theorem delete_redeem_frame (J : JsonCodec) (ctx : Context) (st : Ledger) :
    ((DeleteDebtNote J ctx st).2.world = st.world ∧
      ∀ c k, (∃ o, ctx.clientMSPID = some o ∧ c = "_implicit_org_" ++ o) ∨
        (DeleteDebtNote J ctx st).2.priv c k = st.priv c k) ∧
    ((RedeemDebtNote J ctx st).2.world = st.world ∧
      ∀ c k, (∃ o, ctx.clientMSPID = some o ∧ c = "_implicit_org_" ++ o) ∨
        (RedeemDebtNote J ctx st).2.priv c k = st.priv c k) := by
  constructor
  · rcases DeleteDebtNote_cases J ctx st with ⟨e, he⟩ | ⟨o, p, m, b, hc, -, -, -, -, h⟩
    · rw [he]; exact ⟨rfl, fun _ _ => Or.inr rfl⟩
    · rw [h]
      refine ⟨rfl, fun c k => ?_⟩
      by_cases hck : c = buildCollectionName o
      · exact Or.inl ⟨o, hc, hck⟩
      · exact Or.inr (by simp [deletedLedger, hck])
  · rcases RedeemDebtNote_cases J ctx st with
      ⟨e, he⟩ | ⟨r, rm, o, b, record, -, -, -, hc, -, -, -, -, -, -, h⟩
    · rw [he]; exact ⟨rfl, fun _ _ => Or.inr rfl⟩
    · rw [h]
      refine ⟨rfl, fun c k => ?_⟩
      by_cases hck : c = buildCollectionName o
      · exact Or.inl ⟨o, hc, hck⟩
      · exact Or.inr (by simp [redeemedLedger, hck])

/-- C18: `TransferDebtNote` performs no authorization check: for every ledger
and every pair of transfer payloads, two runs whose contexts carry the same
transient fields, and differ only in the caller's org and the executing node's
org, return the same result and the same ledger. -/
theorem TransferDebtNote_ignores_identity (J : JsonCodec) (ctx1 ctx2 : Context) (st : Ledger)
    (h : ctx1.transient = ctx2.transient) :
    TransferDebtNote J ctx1 st = TransferDebtNote J ctx2 st := by
  unfold TransferDebtNote
  rw [h]

/-- Witness of C18: the transfer of `DN1` to `OrgB`, submitted by a client of
`OrgA` on a peer of `OrgA` and by a client of `OrgC` on a peer of `OrgB`. -/
theorem TransferDebtNote_ignores_identity_witness :
    TransferDebtNote goJson transferCtx Ledger.empty =
      TransferDebtNote goJson transferCtxForeign Ledger.empty :=
  TransferDebtNote_ignores_identity goJson transferCtx transferCtxForeign Ledger.empty rfl

/-! ## The world state holds digests -/

/-- C20: in every ledger reached from the empty one by a sequence of the
operations, every value stored in the world state is the SHA-256 digest, 32
bytes long, of a payload submitted to `CreateDebtNote` or `TransferDebtNote` in
that sequence; it is not that payload (a payload of any length but 32 cannot be
its own digest). -/
theorem world_state_holds_digests (J : JsonCodec) (tr : List (Op × Context)) (k : String)
    (v : Bytes) (h : (run J tr Ledger.empty).world k = some v) :
    v.length = 32 ∧
    ∃ p, submitted tr p ∧ v = SHA256.sum256 p ∧ (p.length ≠ 32 → v ≠ p) := by
  rcases run_world_origin J tr Ledger.empty k v h with h0 | ⟨p, hsub, hv⟩
  · cases h0
  · refine ⟨by rw [hv]; exact SHA256.sum256_length p, p, hsub, hv, fun hlen hvp => ?_⟩
    apply hlen
    rw [← hvp, hv]
    exact SHA256.sum256_length p

/-- Witness of C20: after `OrgA` creates `DN1` on the empty ledger, the entry
under `DN1` is the digest of the submitted payload. -/
theorem world_state_holds_digests_witness :
    (SHA256.sum256 payloadDN1).length = 32 ∧
    ∃ p, submitted [(Op.createDebtNote, orgACtx "debtnote_properties" payloadDN1)] p ∧
      SHA256.sum256 payloadDN1 = SHA256.sum256 p ∧
      (p.length ≠ 32 → SHA256.sum256 payloadDN1 ≠ p) :=
  world_state_holds_digests goJson [(Op.createDebtNote, orgACtx "debtnote_properties" payloadDN1)]
    "DN1" (SHA256.sum256 payloadDN1) (by decide)

/-! ## What creation and redemption store -/

/-- C16 (as amended): after every successful `CreateDebtNote`, the private
record stored under the note's id in the creator's collection is the re-encoded
payload as submitted: `CreateDebtNote` neither sets nor checks `redeemStatus`, so
the stored record carries the `redeemStatus` of the payload (`"False"` exactly
when the payload carried `"False"`). `hrt` says that `json.Unmarshal` reads back
what `json.Marshal` wrote for the record. -/
theorem CreateDebtNote_keeps_redeemStatus (J : JsonCodec) (ctx : Context) (st : Ledger)
    (p : Bytes) (m : JMap) (o : String)
    (hp : ctx.transient "debtnote_properties" = some p) (hm : J.unmarshal p = some m)
    (hc : ctx.clientMSPID = some o)
    (hok : (CreateDebtNote J ctx st).1 = .ok ())
    (hrt : J.readsBack m) :
    ∃ b record, (CreateDebtNote J ctx st).2.priv (buildCollectionName o)
        (getSafeString (m.index "debtNoteID")) = some b ∧
      b = J.marshal m ∧ J.unmarshal b = some record ∧
      getSafeString (record.index "redeemStatus") = getSafeString (m.index "redeemStatus") := by
  obtain ⟨o1, hc1, -, -, -, h⟩ := CreateDebtNote_ok_inv J ctx st p m hp hm hok
  have hoo : o1 = o := Option.some.inj (hc1.symm.trans hc)
  subst hoo
  exact ⟨J.marshal m, m, by simp [h, createdLedger], rfl, hrt, rfl⟩

/-- Witness of C16: `OrgA` creates `DN1` with `redeemStatus` `"False"`. -/
theorem CreateDebtNote_keeps_redeemStatus_witness :
    ∃ b record, (CreateDebtNote goJson (orgACtx "debtnote_properties" payloadDN1)
        Ledger.empty).2.priv (buildCollectionName "OrgA")
        (getSafeString (recordDN1.index "debtNoteID")) = some b ∧
      b = goJson.marshal recordDN1 ∧ goJson.unmarshal b = some record ∧
      getSafeString (record.index "redeemStatus") =
        getSafeString (recordDN1.index "redeemStatus") :=
  CreateDebtNote_keeps_redeemStatus goJson (orgACtx "debtnote_properties" payloadDN1)
    Ledger.empty payloadDN1 recordDN1 "OrgA" rfl rfl rfl (by decide) rfl

/-- C16, counterexample: `OrgA` creates `DN1` from a payload that carries
`redeemStatus` `"True"`; the creation succeeds and the stored record carries
`"True"`, not `"False"`. -/
theorem CreateDebtNote_stores_redeemed_note :
    (CreateDebtNote goJson (orgACtx "debtnote_properties" payloadRedeemed) Ledger.empty).1 =
      .ok () ∧
    (CreateDebtNote goJson (orgACtx "debtnote_properties" payloadRedeemed) Ledger.empty).2.priv
      (buildCollectionName "OrgA") "DN1" = some payloadRedeemed ∧
    goJson.unmarshal payloadRedeemed = some recordRedeemed ∧
    getSafeString (recordRedeemed.index "redeemStatus") = "True" ∧
    getSafeString (recordRedeemed.index "redeemStatus") ≠ "False" :=
  ⟨by decide, by decide, rfl, rfl, by decide⟩

/-- C19 (as amended): for every ledger, caller and redeem payload with id `i` on
which `RedeemDebtNote` succeeds, where the record stored under `i` in the
caller's collection carries `i` as its `debtNoteID` (as the records
`CreateDebtNote` stores do): the record stored afterwards under the same key `i`
in the caller's collection decodes to the previously stored record with
`redeemStatus` set to `"True"` and every other field unchanged, and no other
private entry and no public entry is written. `hrt` says that `json.Unmarshal`
reads back what `json.Marshal` writes for the redeemed record. -/
theorem RedeemDebtNote_overwrites_in_place (J : JsonCodec) (ctx : Context) (st : Ledger)
    (r : Bytes) (rm : JMap) (o : String) (b : Bytes) (record : JMap)
    (hr : ctx.transient "debtnote_redeem" = some r) (hrm : J.unmarshal r = some rm)
    (hc : ctx.clientMSPID = some o)
    (hok : (RedeemDebtNote J ctx st).1 = .ok ())
    (hb : st.priv (buildCollectionName o) (getSafeString (rm.index "debtNoteID")) = some b)
    (hrec : J.unmarshal b = some record)
    (hown : getSafeString (record.index "debtNoteID") = getSafeString (rm.index "debtNoteID"))
    (hrt : J.readsBack (record.set "redeemStatus" (JValue.str "True"))) :
    (∃ b1, (RedeemDebtNote J ctx st).2.priv (buildCollectionName o)
        (getSafeString (rm.index "debtNoteID")) = some b1 ∧
      J.unmarshal b1 = some (record.set "redeemStatus" (JValue.str "True"))) ∧
    getSafeString ((record.set "redeemStatus" (JValue.str "True")).index "redeemStatus") =
      "True" ∧
    (∀ key, key ≠ "redeemStatus" →
      (record.set "redeemStatus" (JValue.str "True")).index key = record.index key) ∧
    (∀ c k, ¬ (c = buildCollectionName o ∧ k = getSafeString (rm.index "debtNoteID")) →
      (RedeemDebtNote J ctx st).2.priv c k = st.priv c k) ∧
    (RedeemDebtNote J ctx st).2.world = st.world := by
  rcases RedeemDebtNote_cases J ctx st with
    ⟨e, he⟩ | ⟨r1, rm1, o1, b1, rec1, hr1, hrm1, -, hc1, -, hb1, hrec1, -, -, -, h⟩
  · rw [he] at hok; cases hok
  · have hrr : r1 = r := Option.some.inj (hr1.symm.trans hr)
    subst hrr
    have hmm : rm1 = rm := Option.some.inj (hrm1.symm.trans hrm)
    subst hmm
    have hoo : o1 = o := Option.some.inj (hc1.symm.trans hc)
    subst hoo
    have hbb : b1 = b := Option.some.inj (hb1.symm.trans hb)
    subst hbb
    have hrc : rec1 = record := Option.some.inj (hrec1.symm.trans hrec)
    subst hrc
    have hk : getSafeString ((rec1.set "redeemStatus" (JValue.str "True")).index "debtNoteID")
        = getSafeString (rm1.index "debtNoteID") := by
      rw [JMap.index_set_other _ _ _ _ (by decide)]; exact hown
    rw [h]
    refine ⟨⟨_, by simp only [redeemedLedger, hk, and_self, if_true], hrt⟩,
      by rw [JMap.index_set_same]; rfl,
      fun key hkey => JMap.index_set_other _ _ _ _ hkey, fun c k hck => ?_, rfl⟩
    simp only [redeemedLedger, hk, if_neg hck]

/-- Witness of C19: `OrgA` creates `DN1` and redeems it; the record is
overwritten under `DN1`. -/
theorem RedeemDebtNote_overwrites_in_place_witness :
    (∃ b1, (RedeemDebtNote goJson (orgACtx "debtnote_redeem" payloadRedeem)
        (CreateDebtNote goJson (orgACtx "debtnote_properties" payloadDN1)
          Ledger.empty).2).2.priv (buildCollectionName "OrgA")
        (getSafeString (JMap.index [("debtNoteID", JValue.str "DN1")] "debtNoteID")) = some b1 ∧
      goJson.unmarshal b1 = some (recordDN1.set "redeemStatus" (JValue.str "True"))) ∧
    getSafeString ((recordDN1.set "redeemStatus" (JValue.str "True")).index "redeemStatus") =
      "True" ∧
    (∀ key, key ≠ "redeemStatus" →
      (recordDN1.set "redeemStatus" (JValue.str "True")).index key = recordDN1.index key) ∧
    (∀ c k, ¬ (c = buildCollectionName "OrgA" ∧
        k = getSafeString (JMap.index [("debtNoteID", JValue.str "DN1")] "debtNoteID")) →
      (RedeemDebtNote goJson (orgACtx "debtnote_redeem" payloadRedeem)
        (CreateDebtNote goJson (orgACtx "debtnote_properties" payloadDN1)
          Ledger.empty).2).2.priv c k =
      (CreateDebtNote goJson (orgACtx "debtnote_properties" payloadDN1)
        Ledger.empty).2.priv c k) ∧
    (RedeemDebtNote goJson (orgACtx "debtnote_redeem" payloadRedeem)
        (CreateDebtNote goJson (orgACtx "debtnote_properties" payloadDN1)
          Ledger.empty).2).2.world =
      (CreateDebtNote goJson (orgACtx "debtnote_properties" payloadDN1) Ledger.empty).2.world :=
  RedeemDebtNote_overwrites_in_place goJson (orgACtx "debtnote_redeem" payloadRedeem)
    (CreateDebtNote goJson (orgACtx "debtnote_properties" payloadDN1) Ledger.empty).2
    payloadRedeem [("debtNoteID", JValue.str "DN1")] "OrgA" payloadSorted recordDN1
    rfl rfl rfl (by decide) (by decide) rfl rfl rfl

/-- C19, counterexample: a transfer puts the record `DN2` under the key `DN1` of
the collection of `OrgA`; `OrgA` then redeems `DN1` with success. Afterwards the
record under `DN1` is the one stored before, still with `redeemStatus` `"False"`,
and the key `DN2`, which had no entry, holds the redeemed record. -/
theorem RedeemDebtNote_writes_other_key :
    (RedeemDebtNote goJson (orgACtx "debtnote_redeem" payloadRedeem)
      (TransferDebtNote goJson (transferToACtx payloadDN2) Ledger.empty).2).1 = .ok () ∧
    (TransferDebtNote goJson (transferToACtx payloadDN2) Ledger.empty).2.priv
      (buildCollectionName "OrgA") "DN1" = some payloadDN2 ∧
    (RedeemDebtNote goJson (orgACtx "debtnote_redeem" payloadRedeem)
      (TransferDebtNote goJson (transferToACtx payloadDN2) Ledger.empty).2).2.priv
      (buildCollectionName "OrgA") "DN1" = some payloadDN2 ∧
    goJson.unmarshal payloadDN2 = some recordDN2 ∧
    getSafeString (recordDN2.index "redeemStatus") = "False" ∧
    (TransferDebtNote goJson (transferToACtx payloadDN2) Ledger.empty).2.priv
      (buildCollectionName "OrgA") "DN2" = none ∧
    (RedeemDebtNote goJson (orgACtx "debtnote_redeem" payloadRedeem)
      (TransferDebtNote goJson (transferToACtx payloadDN2) Ledger.empty).2).2.priv
      (buildCollectionName "OrgA") "DN2" = some payloadDN2Redeemed :=
  ⟨by decide, by decide, by decide, rfl, rfl, by decide, by decide⟩

/-! ## Changes of `redeemStatus` -/

/-- A private entry that an operation other than `TransferDebtNote` changes: a
creation fills an empty entry, a deletion empties one, a redemption writes the
redeemed record under the record's own `debtNoteID`. -/
theorem invoke_priv_changed (J : JsonCodec) (op : Op) (ctx : Context) (st : Ledger)
    (c k : String) (hop : op ≠ Op.transferDebtNote)
    (hch : (invoke J op ctx st).2.priv c k ≠ st.priv c k) :
    st.priv c k = none ∨ (invoke J op ctx st).2.priv c k = none ∨
    (op = Op.redeemDebtNote ∧ ∃ o r rm b0 rec0, ctx.clientMSPID = some o ∧
      c = buildCollectionName o ∧ ctx.transient "debtnote_redeem" = some r ∧
      J.unmarshal r = some rm ∧
      st.priv c (getSafeString (rm.index "debtNoteID")) = some b0 ∧
      J.unmarshal b0 = some rec0 ∧ getSafeString (rec0.index "debtyOrg") = o ∧
      getSafeString (rec0.index "redeemStatus") = "False" ∧
      k = getSafeString (rec0.index "debtNoteID") ∧
      (invoke J op ctx st).2.priv c k =
        some (J.marshal (rec0.set "redeemStatus" (JValue.str "True")))) := by
  cases op with
  | createDebtNote =>
    rcases CreateDebtNote_cases J ctx st with ⟨e, he⟩ | ⟨p, m, o, -, -, -, -, -, -, -, hpr, -, hc⟩
    · simp [invoke, he] at hch
    · by_cases hck : c = buildCollectionName o ∧ k = getSafeString (m.index "debtNoteID")
      · left; rw [hck.1, hck.2]; exact hpr
      · simp [invoke, hc, createdLedger, hck] at hch
  | deleteDebtNote =>
    rcases DeleteDebtNote_cases J ctx st with ⟨e, he⟩ | ⟨o, p, m, b, -, -, -, -, -, hc⟩
    · simp [invoke, he] at hch
    · by_cases hck : c = buildCollectionName o ∧ k = getSafeString (m.index "debtNoteID")
      · right; left; simp [invoke, hc, deletedLedger, hck]
      · simp [invoke, hc, deletedLedger, hck] at hch
  | transferDebtNote => exact absurd rfl hop
  | redeemDebtNote =>
    rcases RedeemDebtNote_cases J ctx st with
      ⟨e, he⟩ | ⟨r, rm, o, b0, rec0, hr, hrm, -, hcl, -, hb0, hrec0, hd, hs, -, hc⟩
    · simp [invoke, he] at hch
    · have hk : getSafeString ((rec0.set "redeemStatus" (JValue.str "True")).index "debtNoteID")
          = getSafeString (rec0.index "debtNoteID") := by
        rw [JMap.index_set_other _ _ _ _ (by decide)]
      by_cases hck : c = buildCollectionName o ∧ k = getSafeString (rec0.index "debtNoteID")
      · right; right
        refine ⟨rfl, o, r, rm, b0, rec0, hcl, hck.1, hr, hrm, by rw [hck.1]; exact hb0, hrec0,
          hd, hs, hck.2, ?_⟩
        simp [invoke, hc, redeemedLedger, hk, hck]
      · simp [invoke, hc, redeemedLedger, hk, hck] at hch
  | getDebtNote i => exact absurd rfl hch
  | getDebtNoteHash i o => exact absurd rfl hch
  | readWorldState key => exact absurd rfl hch

/-! ## One holder per id, without transfer -/

theorem Ledger.singleHolder_empty (J : JsonCodec) : Ledger.empty.singleHolder J :=
  ⟨fun _ _ h => absurd rfl h, fun _ _ _ h => absurd rfl h, fun _ _ _ h => by cases h⟩

/-- The invariant passes to a ledger with the same world state whose private
entries are entries of the first, or encodings the invariant allows. -/
theorem Ledger.singleHolder_of_sub (J : JsonCodec) (st st1 : Ledger)
    (h : st.singleHolder J) (hw : st1.world = st.world)
    (hsub : ∀ c k, st1.priv c k ≠ none → st.priv c k ≠ none)
    (henc : ∀ c k b, st1.priv c k = some b → ∃ m, getSafeString (m.index "debtNoteID") = k ∧
      J.readsBack m ∧ J.readsBack (m.set "redeemStatus" (JValue.str "True")) ∧
      (b = J.marshal m ∨ b = J.marshal (m.set "redeemStatus" (JValue.str "True")))) :
    st1.singleHolder J := by
  obtain ⟨hA, hB, -⟩ := h
  refine ⟨fun c k hck => ?_, fun c1 c2 k h1 h2 => hB c1 c2 k (hsub _ _ h1) (hsub _ _ h2), henc⟩
  rw [hw]; exact hA c k (hsub c k hck)

/-- Every operation other than `TransferDebtNote` keeps the invariant, where the
codec reads back the record a creation stores. -/
theorem Ledger.singleHolder_invoke (J : JsonCodec) (op : Op) (ctx : Context) (st : Ledger)
    (hop : op ≠ Op.transferDebtNote)
    (hrb : ∀ p m, op = Op.createDebtNote → ctx.transient "debtnote_properties" = some p →
      J.unmarshal p = some m →
      J.readsBack m ∧ J.readsBack (m.set "redeemStatus" (JValue.str "True")))
    (h : st.singleHolder J) : (invoke J op ctx st).2.singleHolder J := by
  cases op with
  | createDebtNote =>
    rcases CreateDebtNote_cases J ctx st with ⟨e, he⟩ | ⟨p, m, o, hp, hm, -, -, -, -, hw, -, -, hc⟩
    · simp only [invoke, he]; exact h
    · obtain ⟨hA, hB, hC⟩ := h
      obtain ⟨hr1, hr2⟩ := hrb p m rfl hp hm
      have hl : (invoke J Op.createDebtNote ctx st).2 = createdLedger J st o p m := by
        simp only [invoke, hc]
      rw [hl]
      have hold : ∀ c k, (createdLedger J st o p m).priv c k ≠ none →
          (c = buildCollectionName o ∧ k = getSafeString (m.index "debtNoteID")) ∨
          (k ≠ getSafeString (m.index "debtNoteID") ∧ st.priv c k ≠ none) := by
        intro c k hck
        by_cases hcond : c = buildCollectionName o ∧ k = getSafeString (m.index "debtNoteID")
        · exact Or.inl hcond
        · right
          simp only [createdLedger, if_neg hcond] at hck
          refine ⟨?_, hck⟩
          rintro rfl
          exact hA c _ hck hw
      refine ⟨fun c k hck => ?_, fun c1 c2 k h1 h2 => ?_, fun c k b hb => ?_⟩
      · rcases hold c k hck with ⟨-, hk⟩ | ⟨hk, hpr⟩
        · simp [createdLedger, hk]
        · simp only [createdLedger, if_neg hk]; exact hA c k hpr
      · rcases hold c1 k h1 with ⟨hc1, hk1⟩ | ⟨hk1, hp1⟩ <;>
          rcases hold c2 k h2 with ⟨hc2, hk2⟩ | ⟨hk2, hp2⟩
        · rw [hc1, hc2]
        · exact absurd hk1 hk2
        · exact absurd hk2 hk1
        · exact hB c1 c2 k hp1 hp2
      · by_cases hcond : c = buildCollectionName o ∧ k = getSafeString (m.index "debtNoteID")
        · simp only [createdLedger, if_pos hcond] at hb
          exact ⟨m, hcond.2.symm, hr1, hr2, Or.inl (Option.some.inj hb).symm⟩
        · simp only [createdLedger, if_neg hcond] at hb
          exact hC c k b hb
  | deleteDebtNote =>
    rcases DeleteDebtNote_cases J ctx st with ⟨e, he⟩ | ⟨o, p, m, b, -, -, -, -, -, hc⟩
    · simp only [invoke, he]; exact h
    · have hl : (invoke J Op.deleteDebtNote ctx st).2 =
          deletedLedger st o (getSafeString (m.index "debtNoteID")) := by
        simp only [invoke, hc]
      rw [hl]
      have hsame : ∀ c k v, (deletedLedger st o (getSafeString (m.index "debtNoteID"))).priv c k
          = some v → st.priv c k = some v := by
        intro c k v hv
        by_cases hcond : c = buildCollectionName o ∧ k = getSafeString (m.index "debtNoteID")
        · simp [deletedLedger, hcond] at hv
        · simpa only [deletedLedger, if_neg hcond] using hv
      refine Ledger.singleHolder_of_sub J st _ h rfl (fun c k hck => ?_)
        (fun c k v hv => h.2.2 c k v (hsame c k v hv))
      obtain ⟨v, hv⟩ := Option.ne_none_iff_exists'.mp hck
      rw [hsame c k v hv]; exact Option.some_ne_none _
  | transferDebtNote => exact absurd rfl hop
  | redeemDebtNote =>
    rcases RedeemDebtNote_cases J ctx st with
      ⟨e, he⟩ | ⟨r, rm, o, b0, rec0, -, -, -, -, -, hb0, hrec0, -, hs, -, hc⟩
    · simp only [invoke, he]; exact h
    · have hl : (invoke J Op.redeemDebtNote ctx st).2 = redeemedLedger J st o rec0 := by
        simp only [invoke, hc]
      rw [hl]
      obtain ⟨m, hid, hr1, hr2, hbm⟩ := h.2.2 _ _ _ hb0
      have hrec : rec0 = m := by
        rcases hbm with hbm | hbm
        · rw [hbm] at hrec0
          exact (Option.some.inj (hrec0.symm.trans hr1))
        · rw [hbm] at hrec0
          have h2 : rec0 = m.set "redeemStatus" (JValue.str "True") :=
            Option.some.inj (hrec0.symm.trans hr2)
          rw [h2, JMap.index_set_same] at hs
          exact absurd hs (by decide)
      subst hrec
      have hk : getSafeString ((rec0.set "redeemStatus" (JValue.str "True")).index "debtNoteID")
          = getSafeString (rm.index "debtNoteID") := by
        rw [JMap.index_set_other _ _ _ _ (by decide)]; exact hid
      refine Ledger.singleHolder_of_sub J st _ h rfl (fun c k hck => ?_) (fun c k v hv => ?_)
      · by_cases hcond : c = buildCollectionName o ∧ k = getSafeString (rm.index "debtNoteID")
        · rw [hcond.1, hcond.2, hb0]; exact Option.some_ne_none _
        · simpa only [redeemedLedger, hk, if_neg hcond] using hck
      · by_cases hcond : c = buildCollectionName o ∧ k = getSafeString (rm.index "debtNoteID")
        · simp only [redeemedLedger, hk, if_pos hcond] at hv
          exact ⟨rec0, by rw [hid, hcond.2], hr1, hr2, Or.inr (Option.some.inj hv).symm⟩
        · simp only [redeemedLedger, hk, if_neg hcond] at hv
          exact h.2.2 c k v hv
  | getDebtNote i => exact h
  | getDebtNoteHash i o => exact h
  | readWorldState key => exact h

/-- A sequence without transfer keeps the invariant. -/
theorem Ledger.singleHolder_run (J : JsonCodec) (tr : List (Op × Context)) (st : Ledger)
    (hno : noTransfer tr) (hrb : createdRecordsReadBack J tr) (h : st.singleHolder J) :
    (run J tr st).singleHolder J := by
  induction tr generalizing st with
  | nil => exact h
  | cons step rest ih =>
    obtain ⟨op, ctx⟩ := step
    refine ih _ (fun s hs => hno s (List.mem_cons_of_mem _ hs))
      (fun s hs => hrb s (List.mem_cons_of_mem _ hs)) ?_
    exact Ledger.singleHolder_invoke J op ctx st (hno (op, ctx) (List.mem_cons_self _ _))
      (fun p m hcreate hp hm => hrb (op, ctx) (List.mem_cons_self _ _) p m hcreate hp hm) h

/-- C13 (as amended): in every ledger reached from the empty one by a sequence of
the operations that contains no `TransferDebtNote`, for every id at most one
organization's private collection holds a record under that id.
(`TransferDebtNote` copies the record into the destination collection and leaves
the copy of the source.) `hrb` says that `json.Unmarshal` reads back what
`json.Marshal` writes for the records the creations of the sequence store. -/
theorem single_holder_without_transfer (J : JsonCodec) (tr : List (Op × Context))
    (o1 o2 k : String)
    (hno : noTransfer tr) (hrb : createdRecordsReadBack J tr)
    (h1 : (run J tr Ledger.empty).priv (buildCollectionName o1) k ≠ none)
    (h2 : (run J tr Ledger.empty).priv (buildCollectionName o2) k ≠ none) :
    o1 = o2 :=
  buildCollectionName_inj
    ((Ledger.singleHolder_run J tr Ledger.empty hno hrb (Ledger.singleHolder_empty J)).2.1
      _ _ k h1 h2)

/-- Witness of C13: `OrgA` creates `DN1` and redeems it, `OrgB` tries to create
`DN1`; the holder of `DN1` is `OrgA`. -/
theorem single_holder_without_transfer_witness :
    noTransfer [(Op.createDebtNote, orgACtx "debtnote_properties" payloadDN1),
      (Op.redeemDebtNote, orgACtx "debtnote_redeem" payloadRedeem),
      (Op.createDebtNote, orgBCtx "debtnote_properties" payloadOrgB)] ∧
    (run goJson [(Op.createDebtNote, orgACtx "debtnote_properties" payloadDN1),
      (Op.redeemDebtNote, orgACtx "debtnote_redeem" payloadRedeem),
      (Op.createDebtNote, orgBCtx "debtnote_properties" payloadOrgB)] Ledger.empty).priv
      (buildCollectionName "OrgA") "DN1" ≠ none ∧
    "OrgA" = "OrgA" :=
  ⟨by unfold noTransfer; decide, by decide,
    single_holder_without_transfer goJson
      [(Op.createDebtNote, orgACtx "debtnote_properties" payloadDN1),
        (Op.redeemDebtNote, orgACtx "debtnote_redeem" payloadRedeem),
        (Op.createDebtNote, orgBCtx "debtnote_properties" payloadOrgB)]
      "OrgA" "OrgA" "DN1" (by unfold noTransfer; decide)
      (by
        intro step hs p m hop hp hm
        simp only [List.mem_cons, List.mem_singleton, List.not_mem_nil, or_false] at hs
        rcases hs with rfl | rfl | rfl
        · have hpp : p = payloadDN1 := (Option.some.inj hp).symm
          subst hpp
          have hmm : m = recordDN1 := (Option.some.inj hm).symm
          subst hmm
          exact ⟨rfl, rfl⟩
        · cases hop
        · have hpp : p = payloadOrgB := (Option.some.inj hp).symm
          subst hpp
          have hmm : m = [("debt", JValue.str "100"), ("debtNoteID", JValue.str "DN1"),
              ("debtyOrg", JValue.str "OrgB"), ("redeemStatus", JValue.str "False")] :=
            (Option.some.inj hm).symm
          subst hmm
          exact ⟨rfl, rfl⟩)
      (by decide) (by decide)⟩

/-- C13, counterexample: `OrgA` creates `DN1` and `DN1` is transferred to `OrgB`;
the collections of `OrgA` and of `OrgB` both hold a record under `DN1`. -/
theorem TransferDebtNote_leaves_two_holders :
    transferredState.priv (buildCollectionName "OrgA") "DN1" ≠ none ∧
    transferredState.priv (buildCollectionName "OrgB") "DN1" ≠ none ∧
    "OrgA" ≠ "OrgB" :=
  ⟨by decide, by decide, by decide⟩

/-! ## `redeemStatus` does not go back -/

/-- In a ledger with the invariant, a stored record carries the key it is stored
under as `debtNoteID`. -/
theorem Ledger.singleHolder_own_id (J : JsonCodec) (st : Ledger) (h : st.singleHolder J)
    (c k : String) (b : Bytes) (record : JMap)
    (hb : st.priv c k = some b) (hrec : J.unmarshal b = some record) :
    getSafeString (record.index "debtNoteID") = k := by
  obtain ⟨m, hid, hr1, hr2, hbm⟩ := h.2.2 c k b hb
  rcases hbm with hbm | hbm
  · rw [hbm] at hrec
    have hrm : record = m := Option.some.inj (hrec.symm.trans hr1)
    rw [hrm]; exact hid
  · rw [hbm] at hrec
    have hrm : record = m.set "redeemStatus" (JValue.str "True") :=
      Option.some.inj (hrec.symm.trans hr2)
    rw [hrm, JMap.index_set_other _ _ _ _ (by decide)]; exact hid

/-- In a ledger with the invariant, an operation other than `TransferDebtNote`
leaves a record whose `redeemStatus` is not `"False"` as it is, or removes it;
and an entry that is absent while its key has a public entry stays absent. -/
theorem invoke_keeps_redeemed (J : JsonCodec) (op : Op) (ctx : Context) (st : Ledger)
    (c k : String) (b : Bytes) (record : JMap)
    (hop : op ≠ Op.transferDebtNote) (h : st.singleHolder J)
    (hrec : J.unmarshal b = some record)
    (hs : getSafeString (record.index "redeemStatus") ≠ "False")
    (hst : st.priv c k = some b ∨ (st.priv c k = none ∧ st.world k ≠ none)) :
    (invoke J op ctx st).2.priv c k = some b ∨
      ((invoke J op ctx st).2.priv c k = none ∧ (invoke J op ctx st).2.world k ≠ none) := by
  have hw : st.world k ≠ none := by
    rcases hst with hb | ⟨-, hw⟩
    · exact h.1 c k (by rw [hb]; exact Option.some_ne_none _)
    · exact hw
  have hw' : (invoke J op ctx st).2.world k ≠ none := invoke_world_ne_none J op ctx st k hw
  by_cases hch : (invoke J op ctx st).2.priv c k = st.priv c k
  · rcases hst with hb | ⟨hn, -⟩
    · left; rw [hch]; exact hb
    · right; exact ⟨by rw [hch]; exact hn, hw'⟩
  · cases op with
    | createDebtNote =>
      rcases CreateDebtNote_cases J ctx st with ⟨e, he⟩ | ⟨p, m, o, -, -, -, -, -, -, hwn, -, -, hc⟩
      · simp [invoke, he] at hch
      · by_cases hck : c = buildCollectionName o ∧ k = getSafeString (m.index "debtNoteID")
        · rw [hck.2] at hw; exact absurd hwn hw
        · simp [invoke, hc, createdLedger, hck] at hch
    | deleteDebtNote =>
      rcases DeleteDebtNote_cases J ctx st with ⟨e, he⟩ | ⟨o, p, m, b1, -, -, -, -, -, hc⟩
      · simp [invoke, he] at hch
      · by_cases hck : c = buildCollectionName o ∧ k = getSafeString (m.index "debtNoteID")
        · right; exact ⟨by simp [invoke, hc, deletedLedger, hck], hw'⟩
        · simp [invoke, hc, deletedLedger, hck] at hch
    | transferDebtNote => exact absurd rfl hop
    | redeemDebtNote =>
      rcases RedeemDebtNote_cases J ctx st with
        ⟨e, he⟩ | ⟨r, rm, o, b0, rec0, -, -, -, -, -, hb0, hrec0, -, hs0, -, hc⟩
      · simp [invoke, he] at hch
      · have hown : getSafeString (rec0.index "debtNoteID") =
            getSafeString (rm.index "debtNoteID") :=
          Ledger.singleHolder_own_id J st h _ _ b0 rec0 hb0 hrec0
        have hk : getSafeString
            ((rec0.set "redeemStatus" (JValue.str "True")).index "debtNoteID") =
            getSafeString (rm.index "debtNoteID") := by
          rw [JMap.index_set_other _ _ _ _ (by decide)]; exact hown
        by_cases hck : c = buildCollectionName o ∧ k = getSafeString (rm.index "debtNoteID")
        · rw [← hck.1, ← hck.2] at hb0
          rcases hst with hb | ⟨hn, -⟩
          · have hbb : b0 = b := Option.some.inj (hb0.symm.trans hb)
            subst hbb
            have hrr : rec0 = record := Option.some.inj (hrec0.symm.trans hrec)
            subst hrr
            exact absurd hs0 hs
          · rw [hn] at hb0; cases hb0
        · simp [invoke, hc, redeemedLedger, hk, hck] at hch
    | getDebtNote i => exact absurd rfl hch
    | getDebtNoteHash i o => exact absurd rfl hch
    | readWorldState key => exact absurd rfl hch

/-- A sequence without transfer, from a ledger with the invariant, leaves a record
whose `redeemStatus` is not `"False"` as it is, or removes it for good. -/
theorem run_keeps_redeemed (J : JsonCodec) (tr : List (Op × Context)) (st : Ledger)
    (c k : String) (b : Bytes) (record : JMap)
    (hno : noTransfer tr) (hrb : createdRecordsReadBack J tr) (h : st.singleHolder J)
    (hrec : J.unmarshal b = some record)
    (hs : getSafeString (record.index "redeemStatus") ≠ "False")
    (hst : st.priv c k = some b ∨ (st.priv c k = none ∧ st.world k ≠ none)) :
    (run J tr st).priv c k = some b ∨ (run J tr st).priv c k = none := by
  induction tr generalizing st with
  | nil =>
    rcases hst with hb | ⟨hn, -⟩
    · exact Or.inl hb
    · exact Or.inr hn
  | cons step rest ih =>
    obtain ⟨op, ctx⟩ := step
    have hop : op ≠ Op.transferDebtNote := hno (op, ctx) (List.mem_cons_self _ _)
    exact ih _ (fun s hs1 => hno s (List.mem_cons_of_mem _ hs1))
      (fun s hs1 => hrb s (List.mem_cons_of_mem _ hs1))
      (Ledger.singleHolder_invoke J op ctx st hop
        (fun p m hcreate hp hm => hrb (op, ctx) (List.mem_cons_self _ _) p m hcreate hp hm) h)
      (invoke_keeps_redeemed J op ctx st c k b record hop h hrec hs hst)

/-- C11 (as amended), in two parts, for every codec `J`.
First part, one operation: for every ledger whose private records each carry the
id they are stored under as `debtNoteID` (as the records `CreateDebtNote` stores
do), every caller and every operation other than `TransferDebtNote`: if a private
record stored under some id in some collection has `redeemStatus` `r` before the
operation and a record under the same id in the same collection has a different
`redeemStatus` after it, then the operation is `RedeemDebtNote`, the caller's org
is that record's `debtyOrg`, `r` is `"False"` and the new status is `"True"`
(where `json.Unmarshal` reads back what `json.Marshal` writes for the redeemed
record).
Second part, sequences: no sequence of operations without `TransferDebtNote`,
from the empty ledger, takes a record from redeemed back to not redeemed. If,
after such a sequence `tr1`, a collection holds under an id a record whose
`redeemStatus` is not `"False"` (`"True"` in particular), then after every
further such sequence `tr2` a record under that id in that collection is the
same bytes, with the same `redeemStatus` (where `json.Unmarshal` reads back what
`json.Marshal` writes for the records the creations of the sequences store). -/
theorem redeemStatus_changed_by_redeem (J : JsonCodec) :
    (∀ (op : Op) (ctx : Context) (st : Ledger) (c k : String) (b b' : Bytes)
        (record record' : JMap),
      op ≠ Op.transferDebtNote →
      (∀ c1 k1 b1 rec1, st.priv c1 k1 = some b1 → J.unmarshal b1 = some rec1 →
        getSafeString (rec1.index "debtNoteID") = k1) →
      J.readsBack (record.set "redeemStatus" (JValue.str "True")) →
      st.priv c k = some b → J.unmarshal b = some record →
      (invoke J op ctx st).2.priv c k = some b' → J.unmarshal b' = some record' →
      getSafeString (record.index "redeemStatus") ≠
        getSafeString (record'.index "redeemStatus") →
      op = Op.redeemDebtNote ∧
      ctx.clientMSPID = some (getSafeString (record.index "debtyOrg")) ∧
      c = "_implicit_org_" ++ getSafeString (record.index "debtyOrg") ∧
      getSafeString (record.index "redeemStatus") = "False" ∧
      getSafeString (record'.index "redeemStatus") = "True") ∧
    (∀ (tr1 tr2 : List (Op × Context)) (c k : String) (b b2 : Bytes) (record record2 : JMap),
      noTransfer tr1 → noTransfer tr2 →
      createdRecordsReadBack J tr1 → createdRecordsReadBack J tr2 →
      (run J tr1 Ledger.empty).priv c k = some b → J.unmarshal b = some record →
      getSafeString (record.index "redeemStatus") ≠ "False" →
      (run J tr2 (run J tr1 Ledger.empty)).priv c k = some b2 →
      J.unmarshal b2 = some record2 →
      b2 = b ∧
      getSafeString (record2.index "redeemStatus") =
        getSafeString (record.index "redeemStatus")) := by
  constructor
  · intro op ctx st c k b b' record record' hop hown hrt hb hrec hb' hrec' hne
    have hch : (invoke J op ctx st).2.priv c k ≠ st.priv c k := by
      rw [hb, hb']
      intro h
      have hbb : b' = b := Option.some.inj h
      subst hbb
      have : record' = record := Option.some.inj (hrec'.symm.trans hrec)
      subst this
      exact hne rfl
    rcases invoke_priv_changed J op ctx st c k hop hch with
      h0 | h0 | ⟨hr, o, r, rm, b0, rec0, hcl, hc, -, -, hb0, hrec0, hd, hs, hk, hnew⟩
    · rw [hb] at h0; cases h0
    · rw [hb'] at h0; cases h0
    · have hkey : getSafeString (rm.index "debtNoteID") = k := by
        rw [hk]; exact (hown _ _ _ _ hb0 hrec0).symm
      rw [hkey] at hb0
      have hbb : b0 = b := Option.some.inj (hb0.symm.trans hb)
      subst hbb
      have hrr : rec0 = record := Option.some.inj (hrec0.symm.trans hrec)
      subst hrr
      have hbnew : b' = J.marshal (rec0.set "redeemStatus" (JValue.str "True")) :=
        Option.some.inj (hb'.symm.trans hnew)
      have hnewrec : record' = rec0.set "redeemStatus" (JValue.str "True") := by
        unfold JsonCodec.readsBack at hrt
        rw [← hbnew] at hrt
        exact Option.some.inj (hrec'.symm.trans hrt)
      refine ⟨hr, by rw [hd]; exact hcl, by rw [hd]; exact hc, hs, ?_⟩
      rw [hnewrec, JMap.index_set_same]; rfl
  · intro tr1 tr2 c k b b2 record record2 hno1 hno2 hrb1 hrb2 hb hrec hs hb2 hrec2
    have hinv : (run J tr1 Ledger.empty).singleHolder J :=
      Ledger.singleHolder_run J tr1 Ledger.empty hno1 hrb1 (Ledger.singleHolder_empty J)
    rcases run_keeps_redeemed J tr2 (run J tr1 Ledger.empty) c k b record hno2 hrb2 hinv hrec hs
      (Or.inl hb) with h1 | h1
    · have hbb : b2 = b := Option.some.inj (hb2.symm.trans h1)
      subst hbb
      have hrr : record2 = record := Option.some.inj (hrec2.symm.trans hrec)
      subst hrr
      exact ⟨rfl, rfl⟩
    · rw [h1] at hb2; cases hb2

/-- The creation of `DN1` by `OrgA` stores a record the codec reads back, as
created and after redemption. -/
theorem createdRecordsReadBack_DN1 (rest : List (Op × Context))
    (h : createdRecordsReadBack goJson rest) :
    createdRecordsReadBack goJson
      ((Op.createDebtNote, orgACtx "debtnote_properties" payloadDN1) :: rest) := by
  intro step hs p m hop hp hm
  rcases List.mem_cons.mp hs with rfl | hs
  · have hpp : p = payloadDN1 := (Option.some.inj hp).symm
    subst hpp
    have hmm : m = recordDN1 := (Option.some.inj hm).symm
    subst hmm
    exact ⟨rfl, rfl⟩
  · exact h step hs p m hop hp hm

/-- A step that is not a creation stores no created record. -/
theorem createdRecordsReadBack_skip (J : JsonCodec) (op : Op) (ctx : Context)
    (rest : List (Op × Context)) (hop : op ≠ Op.createDebtNote)
    (h : createdRecordsReadBack J rest) : createdRecordsReadBack J ((op, ctx) :: rest) := by
  intro step hs p m hcreate hp hm
  rcases List.mem_cons.mp hs with rfl | hs
  · exact absurd hcreate hop
  · exact h step hs p m hcreate hp hm

/-- The empty sequence stores no record. -/
theorem createdRecordsReadBack_nil (J : JsonCodec) : createdRecordsReadBack J [] :=
  fun _ hs => absurd hs (List.not_mem_nil _)

/-- Witness of C11. First part: `OrgA` creates `DN1` and redeems it; the record
under `DN1` goes from `"False"` to `"True"`. Second part: after that, `OrgA`
redeems `DN1` again, creates `DN1` again and reads it; the record under `DN1`
is the redeemed one, as before. -/
theorem redeemStatus_changed_by_redeem_witness :
    (Op.redeemDebtNote = Op.redeemDebtNote ∧
      (orgACtx "debtnote_redeem" payloadRedeem).clientMSPID =
        some (getSafeString (recordDN1.index "debtyOrg")) ∧
      "_implicit_org_OrgA" = "_implicit_org_" ++ getSafeString (recordDN1.index "debtyOrg") ∧
      getSafeString (recordDN1.index "redeemStatus") = "False" ∧
      getSafeString (recordRedeemed.index "redeemStatus") = "True") ∧
    ((run goJson [(Op.createDebtNote, orgACtx "debtnote_properties" payloadDN1),
        (Op.redeemDebtNote, orgACtx "debtnote_redeem" payloadRedeem)] Ledger.empty).priv
        "_implicit_org_OrgA" "DN1" = some payloadRedeemed ∧
      getSafeString (recordRedeemed.index "redeemStatus") = "True" ∧
      (run goJson [(Op.redeemDebtNote, orgACtx "debtnote_redeem" payloadRedeem),
        (Op.createDebtNote, orgACtx "debtnote_properties" payloadDN1),
        (Op.getDebtNote "DN1", orgACtx "debtnote_properties" payloadDN1)]
        (run goJson [(Op.createDebtNote, orgACtx "debtnote_properties" payloadDN1),
          (Op.redeemDebtNote, orgACtx "debtnote_redeem" payloadRedeem)] Ledger.empty)).priv
        "_implicit_org_OrgA" "DN1" = some payloadRedeemed ∧
      payloadRedeemed = payloadRedeemed ∧
      getSafeString (recordRedeemed.index "redeemStatus") =
        getSafeString (recordRedeemed.index "redeemStatus")) :=
  ⟨(redeemStatus_changed_by_redeem goJson).1 Op.redeemDebtNote
      (orgACtx "debtnote_redeem" payloadRedeem)
      (CreateDebtNote goJson (orgACtx "debtnote_properties" payloadDN1) Ledger.empty).2
      "_implicit_org_OrgA" "DN1" payloadSorted payloadRedeemed recordDN1 recordRedeemed
      (by decide)
      (by
        intro c1 k1 b1 rec1 h1 h2
        have hl : (CreateDebtNote goJson (orgACtx "debtnote_properties" payloadDN1)
            Ledger.empty).2 = createdLedger goJson Ledger.empty "OrgA" payloadDN1 recordDN1 :=
          congrArg Prod.snd (CreateDebtNote_eq_ok goJson _ Ledger.empty payloadDN1 recordDN1 "OrgA"
            rfl rfl (by decide) (by decide) rfl rfl rfl rfl rfl)
        rw [hl] at h1
        by_cases hcond : c1 = buildCollectionName "OrgA" ∧
            k1 = getSafeString (recordDN1.index "debtNoteID")
        · simp only [createdLedger, if_pos hcond] at h1
          have hbb : b1 = goJson.marshal recordDN1 := (Option.some.inj h1).symm
          subst hbb
          have hrr : rec1 = recordDN1 := (Option.some.inj h2).symm
          subst hrr
          exact hcond.2.symm
        · simp only [createdLedger, if_neg hcond] at h1
          cases h1)
      rfl (by decide) rfl (by decide) rfl (by decide),
    by decide, rfl, by decide,
    (redeemStatus_changed_by_redeem goJson).2
      [(Op.createDebtNote, orgACtx "debtnote_properties" payloadDN1),
        (Op.redeemDebtNote, orgACtx "debtnote_redeem" payloadRedeem)]
      [(Op.redeemDebtNote, orgACtx "debtnote_redeem" payloadRedeem),
        (Op.createDebtNote, orgACtx "debtnote_properties" payloadDN1),
        (Op.getDebtNote "DN1", orgACtx "debtnote_properties" payloadDN1)]
      "_implicit_org_OrgA" "DN1" payloadRedeemed payloadRedeemed recordRedeemed recordRedeemed
      (by unfold noTransfer; decide) (by unfold noTransfer; decide)
      (createdRecordsReadBack_DN1 _ (createdRecordsReadBack_skip _ _ _ _ (by decide)
        (createdRecordsReadBack_nil _)))
      (createdRecordsReadBack_skip _ _ _ _ (by decide) (createdRecordsReadBack_DN1 _
        (createdRecordsReadBack_skip _ _ _ _ (by decide) (createdRecordsReadBack_nil _))))
      (by decide) rfl (by decide) (by decide) rfl⟩

/-- C11, counterexample: `OrgA` creates `DN1` and redeems it, so that its
collection holds `DN1` with `redeemStatus` `"True"`; a client of `OrgB` then
transfers `DN1` to `OrgA` with the record as first submitted. The operation is
`TransferDebtNote`, not `RedeemDebtNote`, and the record under `DN1` in the
collection of `OrgA` goes from `"True"` back to `"False"`. -/
theorem TransferDebtNote_resets_redeemStatus :
    redeemedState.priv "_implicit_org_OrgA" "DN1" = some payloadRedeemed ∧
    goJson.unmarshal payloadRedeemed = some recordRedeemed ∧
    getSafeString (recordRedeemed.index "redeemStatus") = "True" ∧
    (invoke goJson Op.transferDebtNote (transferToACtx payloadDN1) redeemedState).2.priv
      "_implicit_org_OrgA" "DN1" = some payloadDN1 ∧
    goJson.unmarshal payloadDN1 = some recordDN1 ∧
    getSafeString (recordDN1.index "redeemStatus") = "False" ∧
    Op.transferDebtNote ≠ Op.redeemDebtNote :=
  ⟨by decide, rfl, rfl, by decide, rfl, rfl, by decide⟩
